import Mathlib

/-!
# argparse: a shallow embedding of `src/argparse.hpp`

The class `arg::argparse` is embedded as a record of its data members and its
member functions as functions on that record.

* `std::unordered_map<std::string, V>` is an association list without repeated
  keys (`umap V`); `operator[]` is `umap.subscript` (it inserts the
  value-initialised element when the key is absent), `m[k] = v` is
  `umap.assign`, `count` is `umap.count`, `at` is `umap.at_`.
* `std::unordered_set<std::string>` is a list without repetitions (`uset`).
* The order in which a range-for visits an unordered container is not
  specified. `parse` and `usage` visit the list in its order, which is the
  order of insertion; `parse_in_order` and `usage_in_order` take the order of
  the visit as an argument, and a statement that depends on the order is made
  for every order.
* `argv` is given as `argv[0]` and the list `argv[1] .. argv[argc-1]`.
* Exceptions and reads of a union member that is not the active one are values
  of `fault`.
* `std::stoi` is modelled on characters; `std::stod` is a parameter of the
  embedding, a `double` being carried as its 64-bit pattern.
* In `usage`, `size()` is the length in bytes and `size_t` arithmetic wraps
  modulo `2 ^ 64` (`size_add`, `size_sub`).
-/

namespace arg

/-! ## Data model -/

/-- Tag of the value an option carries (`enum parameter_t`). The first
enumerator, `opt_int`, is the value-initialised one. -/
inductive parameter_t
  | opt_int
  | opt_float
  | opt_string
  | opt_none
  deriving DecidableEq, Repr

/-- The ways in which an operation of the library can fail to produce its
value: the exceptions `std::invalid_argument`, `std::out_of_range`,
`bad_optional_access`, and the read of a member of the union of `args_t` that
was not the one written (`inactive_member`, an unspecified result in C++). -/
inductive fault
  | invalid_argument
  | out_of_range
  | bad_optional_access
  | inactive_member
  deriving DecidableEq, Repr

/-- A `double`, carried as its bit pattern. No arithmetic on it is modelled. -/
structure double where
  bits : Nat
  deriving DecidableEq, Repr

/-- The anonymous union of `args_t`: exactly one of `f`, `i`, `s` is active. -/
inductive slot
  | f (x : double)
  | i (n : Int)
  | s (p : String)
  deriving DecidableEq, Repr

/-- The tagged union `args_t`. -/
structure args_t where
  param_type : parameter_t
  u : slot
  deriving DecidableEq, Repr

/-- Conversion `operator int() const { return i; }`. -/
def args_t.to_int (a : args_t) : Except fault Int :=
  match a.u with
  | slot.i n => Except.ok n
  | _ => Except.error fault.inactive_member

/-- Conversion `operator double() const { return f; }`. -/
def args_t.to_double (a : args_t) : Except fault double :=
  match a.u with
  | slot.f x => Except.ok x
  | _ => Except.error fault.inactive_member

/-- Member access `.s`, also `operator char const*()` and
`operator std::string()`. -/
def args_t.to_s (a : args_t) : Except fault String :=
  match a.u with
  | slot.s p => Except.ok p
  | _ => Except.error fault.inactive_member

/-! ## Containers -/

/-- An unordered map with `std::string` keys. -/
abbrev umap (V : Type) := List (String × V)

/-- An unordered set of `std::string`. -/
abbrev uset := List String

/-- The element stored under `k`, if any (`find`). -/
def umap.lookup {V : Type} : umap V → String → Option V
  | [], _ => none
  | (k', v) :: t, k => if k' = k then some v else umap.lookup t k

/-- The member `count(k)` of a map, as a truth value. -/
def umap.count {V : Type} (m : umap V) (k : String) : Bool :=
  (umap.lookup m k).isSome

/-- The member `at(k)`: throws `std::out_of_range` when `k` is absent. -/
def umap.at_ {V : Type} (m : umap V) (k : String) : Except fault V :=
  match umap.lookup m k with
  | some v => Except.ok v
  | none => Except.error fault.out_of_range

/-- The assignment `m[k] = v`. -/
def umap.assign {V : Type} : umap V → String → V → umap V
  | [], k, v => [(k, v)]
  | (k', v') :: t, k, v =>
    if k' = k then (k', v) :: t else (k', v') :: umap.assign t k v

/-- The expression `m[k]` read as a value: the element under `k`, inserting the
value-initialised element `d` first when `k` is absent. -/
def umap.subscript {V : Type} (m : umap V) (k : String) (d : V) : V × umap V :=
  match umap.lookup m k with
  | some v => (v, m)
  | none => (d, umap.assign m k d)

/-- The member `count(k)` of a set, as a truth value. -/
def uset.count (s : uset) (k : String) : Bool :=
  decide (k ∈ s)

/-- The member `insert(k)` of a set. -/
def uset.insert (s : uset) (k : String) : uset :=
  if k ∈ s then s else s ++ [k]

/-! ## The parser object -/

/-- The data members of `class argparse`. -/
structure argparse where
  program_name : String
  defined_set : umap parameter_t := []
  short_map : umap String := []
  long_map : umap String := []
  required_set : uset := []
  help : umap String := []
  flag_set : uset := []
  options : umap (Option args_t) := []
  ignored_options : List String := []
  valid : Bool := false
  deriving DecidableEq, Repr

/-- The constructor `argparse(char const* program_name = "")`. -/
def argparse.create (program_name : String) : argparse :=
  { program_name := program_name }

def is_defined (a : argparse) (key : String) : Bool :=
  umap.count a.defined_set key

def is_short (a : argparse) (key : String) : Bool :=
  umap.count a.short_map key

def is_required (a : argparse) (key : String) : Bool :=
  uset.count a.required_set key

/-! ## Numeric conversion -/

/-- The whitespace that `strtol` skips (`isspace` in the "C" locale). -/
def isspace (c : Char) : Bool :=
  c = ' ' || c = '\t' || c = '\n' || c = '\x0b' || c = '\x0c' || c = '\r'

/-- Value of a decimal digit. -/
def digit_value (c : Char) : Nat :=
  c.toNat - '0'.toNat

/-- Value of a run of decimal digits, most significant first. -/
def digits_value (cs : List Char) : Nat :=
  cs.foldl (fun acc c => acc * 10 + digit_value c) 0

def INT_MIN : Int := -2147483648

def INT_MAX : Int := 2147483647

/-- The sign and the digits that `strtol` (base 10) converts: leading
whitespace is skipped, then an optional `+` or `-`, then the longest run of
decimal digits; what follows is not looked at. -/
def stoi_subject (val : String) : Bool × List Char :=
  let s := val.data.dropWhile isspace
  let body := if s.head? = some '-' ∨ s.head? = some '+' then s.tail else s
  (decide (s.head? = some '-'), body.takeWhile Char.isDigit)

/-- The library function `std::stoi(val)`: `std::invalid_argument` when no
digit can be converted, `std::out_of_range` when the number does not fit an
`int`. -/
def stoi (val : String) : Except fault Int :=
  match stoi_subject val with
  | (_, []) => Except.error fault.invalid_argument
  | (negative, ds) =>
    let n : Int := if negative then -(digits_value ds : Int) else (digits_value ds : Int)
    if INT_MIN ≤ n ∧ n ≤ INT_MAX then Except.ok n else Except.error fault.out_of_range

/-! ## Storing -/

def store_flag (a : argparse) (key : String) : argparse :=
  { a with flag_set := uset.insert a.flag_set key }

def store_int (a : argparse) (key val : String) : Except fault argparse :=
  match stoi val with
  | Except.ok n =>
    Except.ok { a with options := umap.assign a.options key (some ⟨parameter_t.opt_int, slot.i n⟩) }
  | Except.error e => Except.error e

def store_float (stod : String → Except fault double) (a : argparse) (key val : String) :
    Except fault argparse :=
  match stod val with
  | Except.ok x =>
    Except.ok { a with options := umap.assign a.options key (some ⟨parameter_t.opt_float, slot.f x⟩) }
  | Except.error e => Except.error e

def store_string (a : argparse) (key val : String) : argparse :=
  { a with options := umap.assign a.options key (some ⟨parameter_t.opt_string, slot.s val⟩) }

/-! ## Declaration -/

/-- The member `option(id, short_id, param_type, helpstr, required)`. -/
def option (a : argparse) (id short_id : String) (param_type : parameter_t)
    (helpstr : String) (required : Bool) : argparse :=
  let a1 := { a with defined_set := umap.assign a.defined_set id param_type,
                     help := umap.assign a.help id helpstr }
  let a2 := if short_id ≠ "" then
      { a1 with short_map := umap.assign a1.short_map short_id id,
                long_map := umap.assign a1.long_map id short_id }
    else a1
  if required then { a2 with required_set := uset.insert a2.required_set id } else a2

/-- The member `flag(id, short_id, helpstr)`. -/
def flag (a : argparse) (id short_id helpstr : String) : argparse :=
  option a id short_id parameter_t.opt_none helpstr false

/-- The arguments of one call of `option`. -/
structure decl where
  id : String
  short_id : String
  param_type : parameter_t
  helpstr : String := ""
  required : Bool := false
  deriving DecidableEq, Repr

/-- A chain of `option` calls on an object. -/
def declare (a : argparse) (ds : List decl) : argparse :=
  ds.foldl (fun acc d => option acc d.id d.short_id d.param_type d.helpstr d.required) a

def is_valid (a : argparse) : Bool :=
  a.valid

def ignored_opts (a : argparse) : List String :=
  a.ignored_options

/-! ## Parsing -/

/-- The body of `for(int i = 1; i < argc; ++i)` in `parse`, on the arguments
not yet visited. The result is the object when the loop is left and the
exception that left it, if any. -/
def parse_loop (stod : String → Except fault double) :
    argparse → List String → argparse × Option fault
  | a, [] => (a, none)
  | a, tok :: rest =>
    if is_defined a tok || is_short a tok then
      let option := if is_short a tok then (umap.subscript a.short_map tok "").1 else tok
      let kd := umap.subscript a.defined_set option parameter_t.opt_int
      let a1 := { a with defined_set := kd.2 }
      match kd.1 with
      | parameter_t.opt_none => parse_loop stod (store_flag a1 option) rest
      | parameter_t.opt_int =>
        match rest with
        | [] => (a1, none)
        | val :: rest1 =>
          match store_int a1 option val with
          | Except.ok a2 => parse_loop stod a2 rest1
          | Except.error e => (a1, some e)
      | parameter_t.opt_float =>
        match rest with
        | [] => (a1, none)
        | val :: rest1 =>
          match store_float stod a1 option val with
          | Except.ok a2 => parse_loop stod a2 rest1
          | Except.error e => (a1, some e)
      | parameter_t.opt_string =>
        match rest with
        | [] => (a1, none)
        | val :: rest1 => parse_loop stod (store_string a1 option val) rest1
    else parse_loop stod { a with ignored_options := a.ignored_options ++ [tok] } rest

/-- The loop `for(auto const& key: required_set)` at the end of `parse`, on the
keys not yet visited. Both `options[..]` and `short_map[key]` insert when the
key is absent; `&&` evaluates its right operand only when the left one holds. -/
def validate : argparse → List String → argparse
  | a, [] => a
  | a, key :: keys =>
    let o1 := umap.subscript a.options key none
    let a1 := { a with options := o1.2 }
    if o1.1.isSome then validate a1 keys
    else
      let sk := umap.subscript a1.short_map key ""
      let a2 := { a1 with short_map := sk.2 }
      let o2 := umap.subscript a2.options sk.1 none
      let a3 := { a2 with options := o2.2 }
      if o2.1.isSome then validate a3 keys
      else { a3 with valid := false }

/-- What a call of `parse` leaves: the object, and the exception that escaped
the call, if one did. -/
structure outcome where
  state : argparse
  escaped : Option fault
  deriving DecidableEq, Repr

/-- The member `parse(argc, argv)` with `argv = argv0 :: args`. Only
`std::invalid_argument` is caught. -/
def parse (stod : String → Except fault double) (a : argparse) (argv0 : String)
    (args : List String) : outcome :=
  let a0 := if a.program_name = "" then { a with program_name := argv0 } else a
  match parse_loop stod a0 args with
  | (a1, some fault.invalid_argument) => ⟨{ a1 with valid := false }, none⟩
  | (a1, some e) => ⟨a1, some e⟩
  | (a1, none) => ⟨validate { a1 with valid := true } a1.required_set, none⟩

/-! ## Queries -/

def has_key (a : argparse) (keys : List String) : Bool :=
  keys.any (fun k => umap.count a.options k || uset.count a.flag_set k)

def has_flag (a : argparse) (flags : List String) : Bool :=
  flags.any (fun k => uset.count a.flag_set k)

def has_opt (a : argparse) (opts : List String) : Bool :=
  opts.any (fun k => umap.count a.options k)

/-- The element `options.at(key).value()`: `value()` of an empty optional
throws `bad_optional_access`. -/
def stored_value (a : argparse) (key : String) : Except fault args_t :=
  match umap.at_ a.options key with
  | Except.ok (some v) => Except.ok v
  | Except.ok none => Except.error fault.bad_optional_access
  | Except.error e => Except.error e

/-- The specialisation `get<int>`. -/
def get_int (a : argparse) (key : String) : Except fault (Option Int) :=
  if umap.count a.options key then
    match stored_value a key with
    | Except.ok v => (args_t.to_int v).map some
    | Except.error e => Except.error e
  else Except.ok none

/-- The specialisations `get<char const*>` and `get<std::string>`. -/
def get_string (a : argparse) (key : String) : Except fault (Option String) :=
  if umap.count a.options key then
    match stored_value a key with
    | Except.ok v => (args_t.to_s v).map some
    | Except.error e => Except.error e
  else Except.ok none

/-- The specialisation `get<double>`. -/
def get_double (a : argparse) (key : String) : Except fault (Option double) :=
  if umap.count a.options key then
    match stored_value a key with
    | Except.ok v => (args_t.to_double v).map some
    | Except.error e => Except.error e
  else Except.ok none

/-- The specialisation `get<bool>`: never an empty optional. -/
def get_bool (a : argparse) (key : String) : Option Bool :=
  if umap.count a.options key || uset.count a.flag_set key then some true else some false

/-! ## Vocabulary of the specification

The walk of `parse` over the arguments as section 4.2 of the specification
describes it, read off the declarations alone. These definitions do not take
part in `parse`; the theorems below relate them to it.
-/

/-- The decimal numeral of an `int`. -/
def decimal (n : Int) : String :=
  Int.repr n

/-- The id under which `parse` files a token: none when the token is neither a
declared id nor a registered alias; an alias is looked up first. -/
def resolve_in (defined : umap parameter_t) (short : umap String) (tok : String) :
    Option String :=
  if umap.count defined tok || umap.count short tok then
    some (if umap.count short tok then (umap.subscript short tok "").1 else tok)
  else none

/-- The kind that the lookup `defined_set[id]` yields. -/
def kind_in (defined : umap parameter_t) (id : String) : parameter_t :=
  (umap.subscript defined id parameter_t.opt_int).1

/-- What one step of the walk makes of the argument in option position. -/
inductive item
  | flag (id : String)
  | valued (id : String) (kind : parameter_t) (val : String)
  | dangling (id : String)
  | ignored (tok : String)
  deriving DecidableEq, Repr

/-- The walk over the arguments: a token in option position is a Flag option,
a typed option with the value token after it, a typed option that is the last
token, or a token that matches nothing. -/
def scan_in (defined : umap parameter_t) (short : umap String) : List String → List item
  | [] => []
  | tok :: rest =>
    match resolve_in defined short tok with
    | none => item.ignored tok :: scan_in defined short rest
    | some id =>
      match kind_in defined id with
      | parameter_t.opt_none => item.flag id :: scan_in defined short rest
      | k =>
        match rest with
        | [] => [item.dangling id]
        | val :: rest1 => item.valued id k val :: scan_in defined short rest1

def resolve (a : argparse) (tok : String) : Option String :=
  resolve_in a.defined_set a.short_map tok

def kind_of (a : argparse) (id : String) : parameter_t :=
  kind_in a.defined_set id

def scan (a : argparse) (args : List String) : List item :=
  scan_in a.defined_set a.short_map args

/-- The item is a typed option left without a value token. -/
def is_dangling : item → Bool
  | item.dangling _ => true
  | _ => false

/-- The arguments end in option position: no typed option is left as the last
token. -/
def complete (a : argparse) (args : List String) : Bool :=
  (scan a args).all (fun it => !is_dangling it)

/-- A conversion function that converts nothing, for concrete instances. -/
def stod_none : String → Except fault double :=
  fun _ => Except.error fault.invalid_argument

/-- The conversion that the item asks for, if any, succeeds. -/
def converts (stod : String → Except fault double) : item → Bool
  | item.valued _ parameter_t.opt_int val => (stoi val).isOk
  | item.valued _ parameter_t.opt_float val => (stod val).isOk
  | _ => true

/-- The effect of one item on the object. -/
def apply_item (stod : String → Except fault double) (a : argparse) :
    item → Except fault argparse
  | item.flag id => Except.ok (store_flag a id)
  | item.valued id parameter_t.opt_int val => store_int a id val
  | item.valued id parameter_t.opt_float val => store_float stod a id val
  | item.valued id parameter_t.opt_string val => Except.ok (store_string a id val)
  | item.valued _ parameter_t.opt_none _ => Except.ok a
  | item.dangling _ => Except.ok a
  | item.ignored tok => Except.ok { a with ignored_options := a.ignored_options ++ [tok] }

/-- The effect of a list of items, stopping at the first failure. -/
def run (stod : String → Except fault double) : argparse → List item → argparse × Option fault
  | a, [] => (a, none)
  | a, it :: its =>
    match apply_item stod a it with
    | Except.ok a1 => run stod a1 its
    | Except.error e => (a, some e)

/-- Every alias is registered for a declared id. -/
def aliases_declared (a : argparse) : Prop :=
  ∀ tok id, umap.lookup a.short_map tok = some id → umap.count a.defined_set id = true

/-- The value map holds a value under `key`. -/
def has_value (m : umap (Option args_t)) (key : String) : Bool :=
  match umap.lookup m key with
  | some (some _) => true
  | _ => false

/-- The arguments without the tokens that `parse` appends to the ignored list:
a token in option position that matches nothing is dropped, up to the first
conversion that fails. -/
def strip_ignored (stod : String → Except fault double) (a : argparse) :
    List String → List String
  | [] => []
  | tok :: rest =>
    match resolve a tok with
    | none => strip_ignored stod a rest
    | some id =>
      match kind_of a id with
      | parameter_t.opt_none => tok :: strip_ignored stod a rest
      | k =>
        match rest with
        | [] => [tok]
        | val :: rest1 =>
          if converts stod (item.valued id k val) then tok :: val :: strip_ignored stod a rest1
          else tok :: val :: rest1

/-- The tokens of the items that match nothing, in order. -/
def ignored_tokens : List item → List String
  | [] => []
  | item.ignored tok :: its => tok :: ignored_tokens its
  | _ :: its => ignored_tokens its

/-- An item as the walk over the declarations of `a` produces it. -/
def item_ok (a : argparse) : item → Prop
  | item.flag id => (∃ tok, resolve a tok = some id) ∧ kind_of a id = parameter_t.opt_none
  | item.valued id k _ =>
    (∃ tok, resolve a tok = some id) ∧ kind_of a id = k ∧ k ≠ parameter_t.opt_none
  | item.dangling id => (∃ tok, resolve a tok = some id) ∧ kind_of a id ≠ parameter_t.opt_none
  | item.ignored tok => resolve a tok = none

/-- The test that the validation loop of `parse` makes for a required key: a
value under the key itself, or under what `short_map[key]` yields. -/
def supplied (a : argparse) (key : String) : Bool :=
  has_value a.options key || has_value a.options (umap.subscript a.short_map key "").1

/-- The object with its ignored list emptied. -/
def forget_ignored (a : argparse) : argparse :=
  { a with ignored_options := [] }

/-- The object as `parse` starts its loop on it: the program name is taken from
`argv[0]` when it is empty. -/
def named (a : argparse) (argv0 : String) : argparse :=
  if a.program_name = "" then { a with program_name := argv0 } else a

/-- What the loop of `parse` writes: flag set, value map, ignored list. -/
def written (a : argparse) : uset × umap (Option args_t) × List String :=
  (a.flag_set, a.options, a.ignored_options)

/-- What the loop of `parse` leaves alone: the declarations, the program name
and the validity flag. -/
def unwritten (a : argparse) :
    String × umap parameter_t × umap String × umap String × uset × umap String × Bool :=
  (a.program_name, a.defined_set, a.short_map, a.long_map, a.required_set, a.help, a.valid)

/-- The value that a typed option of kind `k` stores for the value token
`val`, when the conversion succeeds. -/
def stored_of (stod : String → Except fault double) : parameter_t → String → Option args_t
  | parameter_t.opt_int, val =>
    match stoi val with
    | Except.ok n => some ⟨parameter_t.opt_int, slot.i n⟩
    | Except.error _ => none
  | parameter_t.opt_float, val =>
    match stod val with
    | Except.ok x => some ⟨parameter_t.opt_float, slot.f x⟩
    | Except.error _ => none
  | parameter_t.opt_string, val => some ⟨parameter_t.opt_string, slot.s val⟩
  | parameter_t.opt_none, _ => none

/-! ## Concrete declarations -/

/-- The declarations of `src/example.cpp`, the help text of `--quiet`
shortened. -/
def example_decls : List decl :=
  [⟨"--help", "-h", parameter_t.opt_none, "show this text", false⟩,
   ⟨"--param", "-p", parameter_t.opt_int, "set some param", false⟩,
   ⟨"--value", "-v", parameter_t.opt_int, "set a value", true⟩,
   ⟨"--string", "-s", parameter_t.opt_string, "set a string", true⟩,
   ⟨"--float", "-f", parameter_t.opt_float, "set a float", false⟩,
   ⟨"--quiet", "-q", parameter_t.opt_none, "shut up", false⟩]

/-- The scenario of the specification: `--help` (flag), `--value` (int,
required), `--string` (string, required). -/
def scenario_decls : List decl :=
  [⟨"--help", "-h", parameter_t.opt_none, "", false⟩,
   ⟨"--value", "-v", parameter_t.opt_int, "", true⟩,
   ⟨"--string", "-s", parameter_t.opt_string, "", true⟩]

/-- An option `--a` whose short alias `--b` is also the id of a required
option. -/
def shadow_decls : List decl :=
  [⟨"--a", "--b", parameter_t.opt_int, "", false⟩,
   ⟨"--b", "-b", parameter_t.opt_int, "", true⟩]

/-- A single option `--value` of kind `opt_int`, optional or required. -/
def value_decls (required : Bool) : List decl :=
  [⟨"--value", "-v", parameter_t.opt_int, "", required⟩]

/-- A Flag option declared required through `option`. -/
def force_decls : List decl :=
  [⟨"--force", "-f", parameter_t.opt_none, "", true⟩]

/-- The assignment `valid = true` that precedes validation. -/
def mark_valid (a : argparse) : argparse :=
  { a with valid := true }

/-! ## The usage text -/

/-- The modulus of `size_t`. -/
def SIZE_MOD : Nat := 2 ^ 64

/-- The member `size()` of a `std::string`: its length in bytes. -/
def size (s : String) : Nat :=
  s.utf8ByteSize

/-- Addition of `size_t`. -/
def size_add (x y : Nat) : Nat :=
  (x + y) % SIZE_MOD

/-- Subtraction of `size_t`: it wraps around below zero. -/
def size_sub (x y : Nat) : Nat :=
  (x + SIZE_MOD - y % SIZE_MOD) % SIZE_MOD

/-- The first loop of `usage`: the largest `size()` of a declared id, starting
from `w`. -/
def max_width_loop : Nat → List (String × parameter_t) → Nat
  | w, [] => w
  | w, opt :: rest => max_width_loop (if size opt.1 > w then size opt.1 else w) rest

/-- The loop `for(size_t i = 0; i < len; ++i) { ss << ' '; }`. -/
def spaces (len : Nat) : String :=
  String.mk (List.replicate len ' ')

/-- The body of the second loop of `usage` for the declared id `id`: the text
that it appends to the stream. `long_map.at` and `help.at` throw when the key
is absent. -/
def usage_entry (a : argparse) (max_width : Nat) (id : String) : Except fault String :=
  let len := size_sub max_width (size id)
  let ss := "\t" ++ id
  let aliased : Except fault (String × Nat) :=
    if umap.count a.long_map id then
      match umap.at_ a.long_map id with
      | Except.ok al => Except.ok (ss ++ ", " ++ al, size_sub len 4)
      | Except.error e => Except.error e
    else Except.ok (ss, len)
  match aliased with
  | Except.error e => Except.error e
  | Except.ok (ss1, len1) =>
    match umap.at_ a.help id with
    | Except.error e => Except.error e
    | Except.ok h =>
      Except.ok (ss1 ++ spaces len1 ++ h ++ (if is_required a id then " (REQUIRED)" else "") ++ "\n")

/-- The second loop of `usage`, on the declared options not yet visited. -/
def usage_loop (a : argparse) (max_width : Nat) :
    List (String × parameter_t) → String → Except fault String
  | [], ss => Except.ok ss
  | opt :: rest, ss =>
    match usage_entry a max_width opt.1 with
    | Except.ok line => usage_loop a max_width rest (ss ++ line)
    | Except.error e => Except.error e

/-- The member `usage()`. -/
def usage (a : argparse) : Except fault String :=
  usage_loop a (size_add (max_width_loop 0 a.defined_set) 15) a.defined_set
    ("Usage: " ++ a.program_name ++ " [OPTIONS]\n\n" ++ "Possible options:\n")

/-- The member `usage()` with the elements of `defined_set` given in the order
in which the two range-for loops visit them. -/
def usage_in_order (a : argparse) (order : List (String × parameter_t)) : Except fault String :=
  usage_loop a (size_add (max_width_loop 0 order) 15) order
    ("Usage: " ++ a.program_name ++ " [OPTIONS]\n\n" ++ "Possible options:\n")

/-- The length in bytes of the longest declared id. -/
def longest (a : argparse) : Nat :=
  (a.defined_set.map (fun opt => opt.1.utf8ByteSize)).foldr max 0

/-- The number of spaces between the names and the help text of a line of the
usage text, as the specification gives it: longest id + 15 - this id, less 4
when an alias is registered for the id. -/
def padding (a : argparse) (id : String) : Nat :=
  longest a + 15 - id.utf8ByteSize -
    (match umap.lookup a.long_map id with
     | some _ => 4
     | none => 0)

/-- The line of the usage text for a declared id, as the specification gives
it: a tab, the id, the alias after a comma when one is registered, the run of
spaces, the help text, the required mark, a line end. -/
def usage_line (a : argparse) (id : String) : String :=
  "\t" ++ id ++
    (match umap.lookup a.long_map id with
     | some al => ", " ++ al
     | none => "") ++
    String.mk (List.replicate (padding a id) ' ') ++
    (umap.lookup a.help id).getD "" ++
    (if id ∈ a.required_set then " (REQUIRED)" else "") ++ "\n"

/-- The usage text as the specification gives it: the header and one line for
each of the ids, in the order given. -/
def usage_text (a : argparse) (ids : List String) : String :=
  "Usage: " ++ a.program_name ++ " [OPTIONS]\n\n" ++ "Possible options:\n" ++
    (ids.map (usage_line a)).foldr (fun line rest => line ++ rest) ""

/-! ## Validation in a given order -/

/-- The member `parse` with the order in which the range-for visits
`required_set` given as `order`. -/
def parse_in_order (stod : String → Except fault double) (a : argparse) (argv0 : String)
    (args : List String) (order : List String) : outcome :=
  let a0 := if a.program_name = "" then { a with program_name := argv0 } else a
  match parse_loop stod a0 args with
  | (a1, some fault.invalid_argument) => ⟨{ a1 with valid := false }, none⟩
  | (a1, some e) => ⟨a1, some e⟩
  | (a1, none) => ⟨validate { a1 with valid := true } order, none⟩

/-! ## More concrete declarations -/

/-- A flag `--q` whose short alias `--b` is also the id of a required
option. -/
def flag_shadow_decls : List decl :=
  [⟨"--q", "--b", parameter_t.opt_none, "", false⟩,
   ⟨"--b", "", parameter_t.opt_int, "", true⟩]

/-- A flag `--f` whose short alias `--v` is also the id of an `opt_int`
option. -/
def typed_shadow_decls : List decl :=
  [⟨"--f", "--v", parameter_t.opt_none, "", false⟩,
   ⟨"--v", "", parameter_t.opt_int, "", false⟩]

/-- A flag `--f` whose short alias `--s` is also the id of an `opt_string`
option. -/
def string_shadow_decls : List decl :=
  [⟨"--f", "--s", parameter_t.opt_none, "", false⟩,
   ⟨"--s", "", parameter_t.opt_string, "", false⟩]

/-! ## Well-formed declarations -/

/-- The declaration maps agree with the declared-options map: the help map has
its keys, and every alias target, every aliased id and every required id is a
declared id. -/
def well_formed (a : argparse) : Prop :=
  (∀ k, umap.count a.help k = umap.count a.defined_set k) ∧
  (∀ tok id, umap.lookup a.short_map tok = some id → umap.count a.defined_set id = true) ∧
  (∀ id, umap.count a.long_map id = true → umap.count a.defined_set id = true) ∧
  (∀ id ∈ a.required_set, umap.count a.defined_set id = true)

end arg

/-! ## Lemmas on the containers -/

namespace arg

theorem umap.lookup_assign {V : Type} (m : umap V) (k k1 : String) (v : V) :
    umap.lookup (umap.assign m k v) k1 = if k = k1 then some v else umap.lookup m k1 := by
  induction m with
  | nil => simp [umap.assign, umap.lookup]
  | cons p t ih =>
    obtain ⟨k0, v0⟩ := p
    by_cases h0 : k0 = k
    · subst h0
      by_cases h1 : k0 = k1 <;> simp [umap.assign, umap.lookup, h1]
    · by_cases h1 : k0 = k1
      · subst h1
        have h2 : ¬ k = k0 := fun e => h0 e.symm
        simp [umap.assign, umap.lookup, h0, h2]
      · simp [umap.assign, umap.lookup, h0, h1, ih]

theorem umap.subscript_fst {V : Type} (m : umap V) (k : String) (d : V) :
    (umap.subscript m k d).1 = (umap.lookup m k).getD d := by
  unfold umap.subscript
  cases h : umap.lookup m k <;> simp

theorem umap.subscript_snd_of_some {V : Type} (m : umap V) (k : String) (d v : V)
    (h : umap.lookup m k = some v) : (umap.subscript m k d).2 = m := by
  unfold umap.subscript
  simp [h]

theorem umap.lookup_subscript {V : Type} (m : umap V) (k k1 : String) (d : V) :
    umap.lookup (umap.subscript m k d).2 k1 =
      if k = k1 ∧ (umap.lookup m k).isNone = true then some d else umap.lookup m k1 := by
  unfold umap.subscript
  cases h : umap.lookup m k with
  | none =>
    simp only [umap.lookup_assign]
    by_cases hk : k = k1 <;> simp [hk]
  | some v => simp

theorem umap.count_eq_true {V : Type} (m : umap V) (k : String) :
    umap.count m k = true ↔ ∃ v, umap.lookup m k = some v := by
  unfold umap.count
  cases umap.lookup m k <;> simp

theorem umap.count_eq_false {V : Type} (m : umap V) (k : String) :
    umap.count m k = false ↔ umap.lookup m k = none := by
  unfold umap.count
  cases umap.lookup m k <;> simp

theorem has_value_assign_some (m : umap (Option args_t)) (k k1 : String) (v : args_t) :
    has_value (umap.assign m k (some v)) k1 = (decide (k = k1) || has_value m k1) := by
  unfold has_value
  rw [umap.lookup_assign]
  by_cases h : k = k1 <;> simp [h]

theorem has_value_subscript (m : umap (Option args_t)) (k k1 : String) :
    has_value (umap.subscript m k none).2 k1 = has_value m k1 := by
  unfold has_value
  rw [umap.lookup_subscript]
  by_cases h1 : k = k1
  · subst h1
    cases h2 : umap.lookup m k <;> simp
  · simp [h1]

theorem has_value_iff (m : umap (Option args_t)) (k : String) :
    has_value m k = true ↔ ∃ v, umap.lookup m k = some (some v) := by
  unfold has_value
  cases h : umap.lookup m k with
  | none => simp
  | some o => cases o <;> simp

end arg

/-! ## The loop of `parse` as a run over the items of the walk -/

namespace arg

theorem resolve_none (a : argparse) (tok : String) (hr : resolve a tok = none) :
    (is_defined a tok || is_short a tok) = false := by
  unfold resolve resolve_in at hr
  unfold is_defined is_short
  by_cases hc : (umap.count a.defined_set tok || umap.count a.short_map tok) = true
  · simp [hc] at hr
  · simpa using hc

theorem resolve_some (a : argparse) (tok id : String) (hr : resolve a tok = some id) :
    (is_defined a tok || is_short a tok) = true ∧
      (if is_short a tok = true then (umap.subscript a.short_map tok "").1 else tok) = id := by
  unfold resolve resolve_in at hr
  unfold is_defined is_short
  by_cases hc : (umap.count a.defined_set tok || umap.count a.short_map tok) = true
  · rw [if_pos hc] at hr
    exact ⟨hc, Option.some.inj hr⟩
  · rw [if_neg hc] at hr
    cases hr

theorem resolve_declared (a : argparse) (h : aliases_declared a) (tok id : String)
    (hr : resolve a tok = some id) : ∃ k, umap.lookup a.defined_set id = some k := by
  obtain ⟨hc, hid⟩ := resolve_some a tok id hr
  unfold is_defined at hc
  unfold is_short at hc hid
  by_cases hs : umap.count a.short_map tok = true
  · rw [if_pos hs] at hid
    obtain ⟨v, hv⟩ := (umap.count_eq_true _ _).1 hs
    rw [umap.subscript_fst, hv] at hid
    simp only [Option.getD_some] at hid
    subst hid
    exact (umap.count_eq_true _ _).1 (h tok v hv)
  · rw [if_neg hs] at hid
    subst hid
    have hd : umap.count a.defined_set tok = true := by
      cases hd : umap.count a.defined_set tok
      · rw [hd] at hc
        simp at hc
        exact absurd hc hs
      · rfl
    exact (umap.count_eq_true _ _).1 hd

theorem defined_subscript (a : argparse) (id : String) (k : parameter_t)
    (hk : umap.lookup a.defined_set id = some k) :
    umap.subscript a.defined_set id parameter_t.opt_int = (k, a.defined_set) := by
  unfold umap.subscript
  simp [hk]

theorem kind_of_eq (a : argparse) (id : String) (k : parameter_t)
    (hk : umap.lookup a.defined_set id = some k) : kind_of a id = k := by
  unfold kind_of kind_in
  rw [defined_subscript a id k hk]

theorem parse_loop_nil (stod : String → Except fault double) (a : argparse) :
    parse_loop stod a [] = (a, none) := by
  unfold parse_loop
  rfl

theorem parse_loop_ignored (stod : String → Except fault double) (a : argparse)
    (tok : String) (rest : List String) (hr : resolve a tok = none) :
    parse_loop stod a (tok :: rest) =
      parse_loop stod { a with ignored_options := a.ignored_options ++ [tok] } rest := by
  have hc := resolve_none a tok hr
  rw [parse_loop]
  simp only [hc]
  rfl

theorem parse_loop_resolved (stod : String → Except fault double) (a : argparse)
    (h : aliases_declared a) (tok id : String) (rest : List String)
    (hr : resolve a tok = some id) :
    parse_loop stod a (tok :: rest) =
      match kind_of a id with
      | parameter_t.opt_none => parse_loop stod (store_flag a id) rest
      | parameter_t.opt_int =>
        match rest with
        | [] => (a, none)
        | val :: rest1 =>
          match store_int a id val with
          | Except.ok a2 => parse_loop stod a2 rest1
          | Except.error e => (a, some e)
      | parameter_t.opt_float =>
        match rest with
        | [] => (a, none)
        | val :: rest1 =>
          match store_float stod a id val with
          | Except.ok a2 => parse_loop stod a2 rest1
          | Except.error e => (a, some e)
      | parameter_t.opt_string =>
        match rest with
        | [] => (a, none)
        | val :: rest1 => parse_loop stod (store_string a id val) rest1 := by
  obtain ⟨hc, hid⟩ := resolve_some a tok id hr
  obtain ⟨k, hk⟩ := resolve_declared a h tok id hr
  rw [parse_loop]
  simp only [hc, if_true, hid]
  rw [defined_subscript a id k hk, kind_of_eq a id k hk]

end arg

namespace arg

theorem scan_nil (a : argparse) : scan a [] = [] := by
  unfold scan scan_in
  rfl

theorem scan_ignored (a : argparse) (tok : String) (rest : List String)
    (hr : resolve a tok = none) : scan a (tok :: rest) = item.ignored tok :: scan a rest := by
  unfold resolve at hr
  unfold scan
  rw [scan_in]
  simp only [hr]

theorem scan_flag (a : argparse) (tok id : String) (rest : List String)
    (hr : resolve a tok = some id) (hk : kind_of a id = parameter_t.opt_none) :
    scan a (tok :: rest) = item.flag id :: scan a rest := by
  unfold resolve at hr
  unfold kind_of at hk
  unfold scan
  rw [scan_in]
  simp only [hr, hk]

theorem scan_dangling (a : argparse) (tok id : String)
    (hr : resolve a tok = some id) (hk : kind_of a id ≠ parameter_t.opt_none) :
    scan a [tok] = [item.dangling id] := by
  unfold resolve at hr
  unfold kind_of at hk
  unfold scan
  rw [scan_in]
  simp only [hr]

theorem scan_valued (a : argparse) (tok id val : String) (rest : List String)
    (hr : resolve a tok = some id) (hk : kind_of a id ≠ parameter_t.opt_none) :
    scan a (tok :: val :: rest) = item.valued id (kind_of a id) val :: scan a rest := by
  unfold resolve at hr
  unfold kind_of at hk ⊢
  unfold scan
  rw [scan_in]
  simp only [hr]

theorem store_int_ok (a a2 : argparse) (id val : String) (h : store_int a id val = Except.ok a2) :
    ∃ n, stoi val = Except.ok n ∧
      a2 = { a with options := umap.assign a.options id (some ⟨parameter_t.opt_int, slot.i n⟩) } := by
  unfold store_int at h
  cases hs : stoi val with
  | error e => rw [hs] at h; cases h
  | ok n =>
    rw [hs] at h
    exact ⟨n, rfl, (Except.ok.inj h).symm⟩

theorem store_float_ok (stod : String → Except fault double) (a a2 : argparse) (id val : String)
    (h : store_float stod a id val = Except.ok a2) :
    ∃ x, stod val = Except.ok x ∧
      a2 = { a with options := umap.assign a.options id (some ⟨parameter_t.opt_float, slot.f x⟩) } := by
  unfold store_float at h
  cases hs : stod val with
  | error e => rw [hs] at h; cases h
  | ok x =>
    rw [hs] at h
    exact ⟨x, rfl, (Except.ok.inj h).symm⟩

theorem run_nil (stod : String → Except fault double) (a : argparse) :
    run stod a [] = (a, none) := by
  unfold run
  rfl

theorem run_cons_ok (stod : String → Except fault double) (a a1 : argparse) (it : item)
    (its : List item) (h : apply_item stod a it = Except.ok a1) :
    run stod a (it :: its) = run stod a1 its := by
  rw [run]
  simp only [h]

theorem run_cons_error (stod : String → Except fault double) (a : argparse) (it : item)
    (its : List item) (e : fault) (h : apply_item stod a it = Except.error e) :
    run stod a (it :: its) = (a, some e) := by
  rw [run]
  simp only [h]

theorem parse_loop_eq_run_aux (stod : String → Except fault double) :
    ∀ (n : Nat) (args : List String), args.length ≤ n → ∀ a : argparse, aliases_declared a →
      parse_loop stod a args = run stod a (scan a args) := by
  intro n
  induction n with
  | zero =>
    intro args hl a _
    have h0 : args = [] := List.length_eq_zero.1 (Nat.le_zero.1 hl)
    subst h0
    rw [parse_loop_nil, scan_nil, run_nil]
  | succ n ih =>
    intro args hl a hwf
    cases args with
    | nil => rw [parse_loop_nil, scan_nil, run_nil]
    | cons tok rest =>
      have hrest : rest.length ≤ n := by simpa using hl
      cases hr : resolve a tok with
      | none =>
        rw [parse_loop_ignored stod a tok rest hr, scan_ignored a tok rest hr,
          run_cons_ok stod a _ (item.ignored tok) _ rfl]
        exact ih rest hrest _ hwf
      | some id =>
        rw [parse_loop_resolved stod a hwf tok id rest hr]
        cases hk : kind_of a id with
        | opt_none =>
          rw [scan_flag a tok id rest hr hk, run_cons_ok stod a _ (item.flag id) _ rfl]
          exact ih rest hrest _ hwf
        | opt_int =>
          have hk1 : kind_of a id ≠ parameter_t.opt_none := by rw [hk]; decide
          cases rest with
          | nil => rw [scan_dangling a tok id hr hk1, run_cons_ok stod a _ (item.dangling id) _ rfl, run_nil]
          | cons val rest1 =>
            have hrest1 : rest1.length ≤ n := by
              simp only [List.length_cons] at hrest
              omega
            rw [scan_valued a tok id val rest1 hr hk1, hk]
            dsimp only
            cases hs : store_int a id val with
            | error e =>
              have hs1 : apply_item stod a (item.valued id parameter_t.opt_int val) = Except.error e := hs
              rw [run_cons_error stod a _ _ e hs1]
            | ok a2 =>
              have hs1 : apply_item stod a (item.valued id parameter_t.opt_int val) = Except.ok a2 := hs
              rw [run_cons_ok stod a a2 _ _ hs1]
              obtain ⟨m, _, ha2⟩ := store_int_ok a a2 id val hs
              subst ha2
              exact ih rest1 hrest1 _ hwf
        | opt_float =>
          have hk1 : kind_of a id ≠ parameter_t.opt_none := by rw [hk]; decide
          cases rest with
          | nil => rw [scan_dangling a tok id hr hk1, run_cons_ok stod a _ (item.dangling id) _ rfl, run_nil]
          | cons val rest1 =>
            have hrest1 : rest1.length ≤ n := by
              simp only [List.length_cons] at hrest
              omega
            rw [scan_valued a tok id val rest1 hr hk1, hk]
            dsimp only
            cases hs : store_float stod a id val with
            | error e =>
              have hs1 : apply_item stod a (item.valued id parameter_t.opt_float val) = Except.error e := hs
              rw [run_cons_error stod a _ _ e hs1]
            | ok a2 =>
              have hs1 : apply_item stod a (item.valued id parameter_t.opt_float val) = Except.ok a2 := hs
              rw [run_cons_ok stod a a2 _ _ hs1]
              obtain ⟨m, _, ha2⟩ := store_float_ok stod a a2 id val hs
              subst ha2
              exact ih rest1 hrest1 _ hwf
        | opt_string =>
          have hk1 : kind_of a id ≠ parameter_t.opt_none := by rw [hk]; decide
          cases rest with
          | nil => rw [scan_dangling a tok id hr hk1, run_cons_ok stod a _ (item.dangling id) _ rfl, run_nil]
          | cons val rest1 =>
            have hrest1 : rest1.length ≤ n := by
              simp only [List.length_cons] at hrest
              omega
            rw [scan_valued a tok id val rest1 hr hk1, hk,
              run_cons_ok stod a _ (item.valued id parameter_t.opt_string val) _ rfl]
            exact ih rest1 hrest1 _ hwf

theorem parse_loop_eq_run (stod : String → Except fault double) (a : argparse)
    (h : aliases_declared a) (args : List String) :
    parse_loop stod a args = run stod a (scan a args) :=
  parse_loop_eq_run_aux stod args.length args (Nat.le_refl _) a h

end arg

/-! ## Declared objects -/

namespace arg

theorem aliases_declared_option (a : argparse) (h : aliases_declared a) (id short_id : String)
    (k : parameter_t) (helpstr : String) (required : Bool) :
    aliases_declared (option a id short_id k helpstr required) := by
  intro tok id1 hl
  rw [umap.count_eq_true]
  have hd : (option a id short_id k helpstr required).defined_set = umap.assign a.defined_set id k := by
    unfold option
    by_cases hs : short_id ≠ "" <;> cases required <;> simp [hs]
  have hsm : (option a id short_id k helpstr required).short_map =
      if short_id ≠ "" then umap.assign a.short_map short_id id else a.short_map := by
    unfold option
    by_cases hs : short_id ≠ "" <;> cases required <;> simp [hs]
  rw [hd, umap.lookup_assign]
  rw [hsm] at hl
  by_cases hid : id = id1
  · simp [hid]
  · rw [if_neg hid]
    by_cases hs : short_id ≠ ""
    · rw [if_pos hs, umap.lookup_assign] at hl
      by_cases ht : short_id = tok
      · rw [if_pos ht] at hl
        exact absurd (Option.some.inj hl) hid
      · rw [if_neg ht] at hl
        exact (umap.count_eq_true _ _).1 (h tok id1 hl)
    · rw [if_neg hs] at hl
      exact (umap.count_eq_true _ _).1 (h tok id1 hl)

theorem option_written (a : argparse) (id short_id : String)
    (k : parameter_t) (helpstr : String) (required : Bool) :
    written (option a id short_id k helpstr required) = written a ∧
      (option a id short_id k helpstr required).valid = a.valid := by
  unfold option written
  by_cases hs : short_id ≠ "" <;> cases required <;> simp [hs]

theorem declare_invariants (ds : List decl) : ∀ a : argparse, aliases_declared a →
    aliases_declared (declare a ds) ∧ written (declare a ds) = written a ∧
      (declare a ds).valid = a.valid := by
  induction ds with
  | nil => intro a h; exact ⟨h, rfl, rfl⟩
  | cons d ds ih =>
    intro a h
    have h1 := aliases_declared_option a h d.id d.short_id d.param_type d.helpstr d.required
    have h2 := option_written a d.id d.short_id d.param_type d.helpstr d.required
    obtain ⟨i1, i2, i3⟩ := ih _ h1
    refine ⟨i1, ?_, ?_⟩
    · exact i2.trans h2.1
    · exact i3.trans h2.2

theorem aliases_declared_create (name : String) : aliases_declared (argparse.create name) := by
  intro tok id hl
  simp [argparse.create, umap.lookup] at hl

theorem declared_aliases (name : String) (ds : List decl) :
    aliases_declared (declare (argparse.create name) ds) :=
  (declare_invariants ds _ (aliases_declared_create name)).1

theorem declared_written (name : String) (ds : List decl) :
    written (declare (argparse.create name) ds) = ([], [], []) :=
  (declare_invariants ds _ (aliases_declared_create name)).2.1

theorem declared_valid (name : String) (ds : List decl) :
    (declare (argparse.create name) ds).valid = false :=
  (declare_invariants ds _ (aliases_declared_create name)).2.2

theorem named_aliases (a : argparse) (h : aliases_declared a) (argv0 : String) :
    aliases_declared (named a argv0) := by
  unfold named
  by_cases hn : a.program_name = ""
  · rw [if_pos hn]; exact h
  · rw [if_neg hn]; exact h

theorem named_scan (a : argparse) (argv0 : String) (args : List String) :
    scan (named a argv0) args = scan a args := by
  unfold named
  by_cases hn : a.program_name = ""
  · rw [if_pos hn]; rfl
  · rw [if_neg hn]

theorem named_fields (a : argparse) (argv0 : String) :
    written (named a argv0) = written a ∧ (named a argv0).valid = a.valid ∧
      (named a argv0).required_set = a.required_set ∧
      (named a argv0).short_map = a.short_map ∧
      (named a argv0).defined_set = a.defined_set := by
  unfold named
  by_cases hn : a.program_name = ""
  · rw [if_pos hn]; exact ⟨rfl, rfl, rfl, rfl, rfl⟩
  · rw [if_neg hn]; exact ⟨rfl, rfl, rfl, rfl, rfl⟩

/-- The member `parse` in terms of the walk: the loop is the run over the items
of the arguments, then validation (or the handler). -/
theorem parse_eq (stod : String → Except fault double) (a : argparse)
    (h : aliases_declared a) (argv0 : String) (args : List String) :
    parse stod a argv0 args =
      match run stod (named a argv0) (scan a args) with
      | (a1, some fault.invalid_argument) => ⟨{ a1 with valid := false }, none⟩
      | (a1, some e) => ⟨a1, some e⟩
      | (a1, none) => ⟨validate { a1 with valid := true } a1.required_set, none⟩ := by
  have h1 := parse_loop_eq_run stod (named a argv0) (named_aliases a h argv0) args
  rw [named_scan] at h1
  unfold parse
  rw [← h1]
  rfl

end arg

/-! ## Runs of items -/

namespace arg

theorem apply_item_ok_iff (stod : String → Except fault double) (s : argparse) (it : item) :
    (∃ s1, apply_item stod s it = Except.ok s1) ↔ converts stod it = true := by
  cases it with
  | flag id => simp [apply_item, converts]
  | dangling id => simp [apply_item, converts]
  | ignored tok => simp [apply_item, converts]
  | valued id k val =>
    cases k with
    | opt_none => simp [apply_item, converts]
    | opt_string => simp [apply_item, converts]
    | opt_int =>
      simp only [apply_item, converts, store_int]
      cases stoi val <;> simp [Except.isOk, Except.toBool]
    | opt_float =>
      simp only [apply_item, converts, store_float]
      cases stod val <;> simp [Except.isOk, Except.toBool]

theorem apply_item_error_iff (stod : String → Except fault double) (s : argparse) (it : item) :
    (∃ e, apply_item stod s it = Except.error e) ↔ converts stod it = false := by
  have h := apply_item_ok_iff stod s it
  cases ha : apply_item stod s it with
  | ok s1 =>
    have : converts stod it = true := h.1 ⟨s1, ha⟩
    simp [this]
  | error e =>
    have : ¬ converts stod it = true := by
      intro hc
      obtain ⟨s1, hs1⟩ := h.2 hc
      rw [ha] at hs1
      cases hs1
    simp [this]

theorem apply_item_state_free (stod : String → Except fault double) (s t : argparse) (it : item)
    (e : fault) (h : apply_item stod s it = Except.error e) :
    apply_item stod t it = Except.error e := by
  cases it with
  | flag id => simp [apply_item] at h
  | dangling id => simp [apply_item] at h
  | ignored tok => simp [apply_item] at h
  | valued id k val =>
    cases k with
    | opt_none => simp [apply_item] at h
    | opt_string => simp [apply_item] at h
    | opt_int =>
      simp only [apply_item, store_int] at h ⊢
      cases hs : stoi val with
      | ok n => rw [hs] at h; cases h
      | error e1 => rw [hs] at h; exact h
    | opt_float =>
      simp only [apply_item, store_float] at h ⊢
      cases hs : stod val with
      | ok n => rw [hs] at h; cases h
      | error e1 => rw [hs] at h; exact h

theorem apply_item_unwritten (stod : String → Except fault double) (s s1 : argparse) (it : item)
    (h : apply_item stod s it = Except.ok s1) : unwritten s1 = unwritten s := by
  cases it with
  | flag id =>
    simp only [apply_item, Except.ok.injEq] at h
    subst h
    rfl
  | dangling id =>
    simp only [apply_item, Except.ok.injEq] at h
    subst h
    rfl
  | ignored tok =>
    simp only [apply_item, Except.ok.injEq] at h
    subst h
    rfl
  | valued id k val =>
    cases k with
    | opt_none =>
      simp only [apply_item, Except.ok.injEq] at h
      subst h
      rfl
    | opt_string =>
      simp only [apply_item, Except.ok.injEq] at h
      subst h
      rfl
    | opt_int =>
      obtain ⟨n, _, hs⟩ := store_int_ok s s1 id val h
      subst hs
      rfl
    | opt_float =>
      obtain ⟨n, _, hs⟩ := store_float_ok stod s s1 id val h
      subst hs
      rfl

theorem run_append (stod : String → Except fault double) (xs : List item) :
    ∀ (s : argparse) (ys : List item), run stod s (xs ++ ys) =
      match run stod s xs with
      | (s1, none) => run stod s1 ys
      | (s1, some e) => (s1, some e) := by
  induction xs with
  | nil => intro s ys; rw [run_nil]; rfl
  | cons x xs ih =>
    intro s ys
    cases hx : apply_item stod s x with
    | ok s1 =>
      rw [List.cons_append, run_cons_ok stod s s1 x _ hx, run_cons_ok stod s s1 x _ hx]
      exact ih s1 ys
    | error e =>
      rw [List.cons_append, run_cons_error stod s x _ e hx, run_cons_error stod s x _ e hx]

theorem run_unwritten (stod : String → Except fault double) (its : List item) :
    ∀ s : argparse, unwritten (run stod s its).1 = unwritten s := by
  induction its with
  | nil => intro s; rw [run_nil]
  | cons x xs ih =>
    intro s
    cases hx : apply_item stod s x with
    | ok s1 =>
      rw [run_cons_ok stod s s1 x _ hx, ih s1]
      exact apply_item_unwritten stod s s1 x hx
    | error e => rw [run_cons_error stod s x _ e hx]

theorem run_fault_none_iff (stod : String → Except fault double) (its : List item) :
    ∀ s : argparse, (run stod s its).2 = none ↔ ∀ it ∈ its, converts stod it = true := by
  induction its with
  | nil => intro s; rw [run_nil]; simp
  | cons x xs ih =>
    intro s
    cases hx : apply_item stod s x with
    | ok s1 =>
      have hc := (apply_item_ok_iff stod s x).1 ⟨s1, hx⟩
      rw [run_cons_ok stod s s1 x _ hx, ih s1]
      simp [hc]
    | error e =>
      have hc := (apply_item_error_iff stod s x).1 ⟨e, hx⟩
      rw [run_cons_error stod s x _ e hx]
      simp [hc]

theorem run_ignored (stod : String → Except fault double) (its : List item) :
    ∀ s : argparse, (run stod s its).2 = none →
      (run stod s its).1.ignored_options = s.ignored_options ++ ignored_tokens its := by
  induction its with
  | nil => intro s _; rw [run_nil]; simp [ignored_tokens]
  | cons x xs ih =>
    intro s hf
    cases hx : apply_item stod s x with
    | error e =>
      rw [run_cons_error stod s x _ e hx] at hf
      cases hf
    | ok s1 =>
      rw [run_cons_ok stod s s1 x _ hx] at hf ⊢
      rw [ih s1 hf]
      cases x with
      | flag id =>
        simp only [apply_item, Except.ok.injEq] at hx
        subst hx
        simp [ignored_tokens, store_flag]
      | dangling id =>
        simp only [apply_item, Except.ok.injEq] at hx
        subst hx
        simp [ignored_tokens]
      | ignored tok =>
        simp only [apply_item, Except.ok.injEq] at hx
        subst hx
        simp [ignored_tokens]
      | valued id k val =>
        cases k with
        | opt_none =>
          simp only [apply_item, Except.ok.injEq] at hx
          subst hx
          simp [ignored_tokens]
        | opt_string =>
          simp only [apply_item, Except.ok.injEq] at hx
          subst hx
          simp [ignored_tokens, store_string]
        | opt_int =>
          obtain ⟨n, _, hs⟩ := store_int_ok s s1 id val hx
          subst hs
          simp [ignored_tokens]
        | opt_float =>
          obtain ⟨n, _, hs⟩ := store_float_ok stod s s1 id val hx
          subst hs
          simp [ignored_tokens]

end arg

/-! ## Validation -/

namespace arg

theorem subscript_isSome (m : umap (Option args_t)) (key : String) :
    (umap.subscript m key none).1.isSome = has_value m key := by
  rw [umap.subscript_fst]
  unfold has_value
  cases h : umap.lookup m key with
  | none => rfl
  | some o => cases o <;> rfl

theorem lookup_subscript_value (m : umap (Option args_t)) (key k : String) (v : args_t) :
    umap.lookup (umap.subscript m key none).2 k = some (some v) ↔
      umap.lookup m k = some (some v) := by
  rw [umap.lookup_subscript]
  by_cases h1 : key = k
  · subst h1
    cases h2 : umap.lookup m key <;> simp
  · simp [h1]

theorem short_subscript_fst (m : umap String) (key k : String) :
    (umap.subscript (umap.subscript m key "").2 k "").1 = (umap.subscript m k "").1 := by
  rw [umap.subscript_fst, umap.subscript_fst, umap.lookup_subscript]
  by_cases h1 : key = k
  · subst h1
    cases h2 : umap.lookup m key <;> simp
  · simp [h1]

theorem supplied_congr (s t : argparse)
    (ho : ∀ k, has_value t.options k = has_value s.options k)
    (hs : ∀ k, (umap.subscript t.short_map k "").1 = (umap.subscript s.short_map k "").1) :
    supplied t = supplied s := by
  funext k
  unfold supplied
  rw [ho, ho, hs]

theorem validate_valid (keys : List String) : ∀ s : argparse,
    (validate s keys).valid = (s.valid && keys.all (supplied s)) := by
  induction keys with
  | nil => intro s; simp [validate]
  | cons key keys ih =>
    intro s
    rw [validate]
    dsimp only
    by_cases h1 : (umap.subscript s.options key none).1.isSome = true
    · rw [if_pos h1, ih]
      have hc : supplied { s with options := (umap.subscript s.options key none).2 } = supplied s :=
        supplied_congr s _ (fun k => has_value_subscript s.options key k) (fun _ => rfl)
      have hk : supplied s key = true := by
        unfold supplied
        rw [← subscript_isSome, h1]
        rfl
      rw [hc, List.all_cons, hk]
      rfl
    · rw [if_neg h1]
      by_cases h2 : (umap.subscript (umap.subscript s.options key none).2
          (umap.subscript s.short_map key "").1 none).1.isSome = true
      · rw [if_pos h2, ih]
        have hc : supplied { s with
            options := (umap.subscript (umap.subscript s.options key none).2
              (umap.subscript s.short_map key "").1 none).2,
            short_map := (umap.subscript s.short_map key "").2 } = supplied s :=
          supplied_congr s _
            (fun k => by
              show has_value (umap.subscript (umap.subscript s.options key none).2
                (umap.subscript s.short_map key "").1 none).2 k = _
              rw [has_value_subscript, has_value_subscript])
            (fun k => short_subscript_fst s.short_map key k)
        have hk : supplied s key = true := by
          unfold supplied
          rw [subscript_isSome, has_value_subscript] at h2
          rw [h2]
          simp
        rw [hc, List.all_cons, hk]
        rfl
      · rw [if_neg h2]
        have hk : supplied s key = false := by
          unfold supplied
          rw [subscript_isSome, has_value_subscript] at h2
          rw [subscript_isSome] at h1
          simp only [Bool.not_eq_true] at h1 h2
          rw [h1, h2]
          rfl
        rw [List.all_cons, hk]
        simp

theorem validate_lookup_value (keys : List String) : ∀ (s : argparse) (k : String) (v : args_t),
    umap.lookup (validate s keys).options k = some (some v) ↔
      umap.lookup s.options k = some (some v) := by
  induction keys with
  | nil => intro s k v; simp [validate]
  | cons key keys ih =>
    intro s k v
    rw [validate]
    dsimp only
    by_cases h1 : (umap.subscript s.options key none).1.isSome = true
    · rw [if_pos h1, ih]
      exact lookup_subscript_value s.options key k v
    · rw [if_neg h1]
      by_cases h2 : (umap.subscript (umap.subscript s.options key none).2
          (umap.subscript s.short_map key "").1 none).1.isSome = true
      · rw [if_pos h2, ih]
        show umap.lookup (umap.subscript (umap.subscript s.options key none).2
          (umap.subscript s.short_map key "").1 none).2 k = _ ↔ _
        rw [lookup_subscript_value, lookup_subscript_value]
      · rw [if_neg h2]
        show umap.lookup (umap.subscript (umap.subscript s.options key none).2
          (umap.subscript s.short_map key "").1 none).2 k = _ ↔ _
        rw [lookup_subscript_value, lookup_subscript_value]

theorem validate_has_value (keys : List String) (s : argparse) (k : String) :
    has_value (validate s keys).options k = has_value s.options k := by
  have h := validate_lookup_value keys s k
  cases h1 : has_value (validate s keys).options k with
  | true =>
    obtain ⟨v, hv⟩ := (has_value_iff _ _).1 h1
    exact ((has_value_iff _ _).2 ⟨v, (h v).1 hv⟩).symm
  | false =>
    cases h2 : has_value s.options k with
    | false => rfl
    | true =>
      obtain ⟨v, hv⟩ := (has_value_iff _ _).1 h2
      rw [(has_value_iff _ _).2 ⟨v, (h v).2 hv⟩] at h1
      cases h1

theorem validate_keeps (keys : List String) : ∀ s : argparse,
    (validate s keys).flag_set = s.flag_set ∧
      (validate s keys).ignored_options = s.ignored_options := by
  induction keys with
  | nil => intro s; simp [validate]
  | cons key keys ih =>
    intro s
    rw [validate]
    dsimp only
    by_cases h1 : (umap.subscript s.options key none).1.isSome = true
    · rw [if_pos h1]
      exact ih _
    · rw [if_neg h1]
      by_cases h2 : (umap.subscript (umap.subscript s.options key none).2
          (umap.subscript s.short_map key "").1 none).1.isSome = true
      · rw [if_pos h2]
        exact ih _
      · rw [if_neg h2]
        exact ⟨rfl, rfl⟩

theorem validate_forget (keys : List String) : ∀ s : argparse,
    forget_ignored (validate s keys) = validate (forget_ignored s) keys := by
  induction keys with
  | nil => intro s; simp [validate]
  | cons key keys ih =>
    intro s
    rw [validate, validate]
    dsimp only
    have e1 : (forget_ignored s).options = s.options := rfl
    have e2 : (forget_ignored s).short_map = s.short_map := rfl
    rw [e1, e2]
    by_cases h1 : (umap.subscript s.options key none).1.isSome = true
    · rw [if_pos h1, if_pos h1, ih]
      rfl
    · rw [if_neg h1, if_neg h1]
      by_cases h2 : (umap.subscript (umap.subscript s.options key none).2
          (umap.subscript s.short_map key "").1 none).1.isSome = true
      · rw [if_pos h2, if_pos h2, ih]
        rfl
      · rw [if_neg h2, if_neg h2]
        rfl

end arg

/-! ## Decimal numerals and `stoi` -/

namespace arg

/-- A character that `stoi` reads as a digit: not whitespace, not a sign. -/
theorem digitChar_digit (d : Nat) (h : d < 10) :
    (Nat.digitChar d).isDigit = true ∧ digit_value (Nat.digitChar d) = d ∧
      isspace (Nat.digitChar d) = false ∧ Nat.digitChar d ≠ '-' ∧ Nat.digitChar d ≠ '+' := by
  interval_cases d <;> decide

theorem digits_value_snoc (ds : List Char) (c : Char) :
    digits_value (ds ++ [c]) = digits_value ds * 10 + digit_value c := by
  unfold digits_value
  rw [List.foldl_append]
  rfl

theorem toDigitsCore_digits (fuel : Nat) : ∀ (n : Nat) (acc : List Char), n < fuel →
    ∃ ds, Nat.toDigitsCore 10 fuel n acc = ds ++ acc ∧ ds ≠ [] ∧
      (∀ c ∈ ds, c.isDigit = true ∧ isspace c = false ∧ c ≠ '-' ∧ c ≠ '+') ∧
      digits_value ds = n := by
  induction fuel with
  | zero => intro n acc h; omega
  | succ fuel ih =>
    intro n acc h
    have hd := digitChar_digit (n % 10) (Nat.mod_lt _ (by decide))
    by_cases h0 : n / 10 = 0
    · refine ⟨[Nat.digitChar (n % 10)], ?_, by simp, ?_, ?_⟩
      · simp [Nat.toDigitsCore, h0]
      · intro c hc
        rw [List.mem_singleton] at hc
        subst hc
        exact ⟨hd.1, hd.2.2.1, hd.2.2.2.1, hd.2.2.2.2⟩
      · have : digits_value [Nat.digitChar (n % 10)] = digit_value (Nat.digitChar (n % 10)) := by
          simp [digits_value]
        rw [this, hd.2.1]
        omega
    · have hlt : n / 10 < fuel := by omega
      obtain ⟨ds, e1, _, e3, e4⟩ := ih (n / 10) (Nat.digitChar (n % 10) :: acc) hlt
      refine ⟨ds ++ [Nat.digitChar (n % 10)], ?_, by simp, ?_, ?_⟩
      · simp [Nat.toDigitsCore, h0, e1]
      · intro c hc
        rw [List.mem_append, List.mem_singleton] at hc
        rcases hc with hc | hc
        · exact e3 c hc
        · subst hc
          exact ⟨hd.1, hd.2.2.1, hd.2.2.2.1, hd.2.2.2.2⟩
      · rw [digits_value_snoc, e4, hd.2.1]
        omega

theorem stoi_subject_digits (ds : List Char) (hne : ds ≠ [])
    (hall : ∀ c ∈ ds, c.isDigit = true ∧ isspace c = false ∧ c ≠ '-' ∧ c ≠ '+') :
    stoi_subject ⟨ds⟩ = (false, ds) ∧ stoi_subject ⟨'-' :: ds⟩ = (true, ds) := by
  have htake : ds.takeWhile Char.isDigit = ds :=
    List.takeWhile_eq_self_iff.2 (fun c hc => (hall c hc).1)
  cases ds with
  | nil => exact absurd rfl hne
  | cons c cs =>
    obtain ⟨_, h2, h3, h4⟩ := hall c (List.mem_cons_self _ _)
    constructor
    · unfold stoi_subject
      have hdrop : List.dropWhile isspace (c :: cs) = c :: cs := by
        rw [List.dropWhile_cons, h2]
        rfl
      simp only [hdrop, List.head?_cons, Option.some.injEq, h3, h4, or_self, if_false, htake,
        decide_False]
    · unfold stoi_subject
      have hdrop : List.dropWhile isspace ('-' :: c :: cs) = '-' :: c :: cs := by
        rw [List.dropWhile_cons]
        rfl
      simp only [hdrop, List.head?_cons, true_or, if_true, List.tail_cons, htake, decide_True]

theorem stoi_decimal (n : Int) (hn : INT_MIN ≤ n ∧ n ≤ INT_MAX) :
    stoi (decimal n) = Except.ok n := by
  cases n with
  | ofNat m =>
    obtain ⟨ds, e1, e2, e3, e4⟩ := toDigitsCore_digits (m + 1) m [] (Nat.lt_succ_self m)
    rw [List.append_nil] at e1
    have hd : decimal (Int.ofNat m) = ⟨ds⟩ := by
      show (Nat.toDigits 10 m).asString = _
      unfold Nat.toDigits
      rw [e1]
      rfl
    unfold stoi
    rw [hd, (stoi_subject_digits ds e2 e3).1]
    cases ds with
    | nil => exact absurd rfl e2
    | cons c cs =>
      simp only [Bool.false_eq_true, if_false]
      rw [e4]
      exact if_pos hn
  | negSucc m =>
    obtain ⟨ds, e1, e2, e3, e4⟩ := toDigitsCore_digits (m + 1 + 1) (m + 1) [] (Nat.lt_succ_self _)
    rw [List.append_nil] at e1
    have hd : decimal (Int.negSucc m) = ⟨'-' :: ds⟩ := by
      show "-" ++ (Nat.toDigits 10 (m + 1)).asString = _
      unfold Nat.toDigits
      rw [e1]
      rfl
    unfold stoi
    rw [hd, (stoi_subject_digits ds e2 e3).2]
    cases ds with
    | nil => exact absurd rfl e2
    | cons c cs =>
      simp only [if_true]
      rw [e4]
      have he : -((m + 1 : Nat) : Int) = Int.negSucc m := by
        rw [Int.negSucc_eq]
        push_cast
        ring
      rw [he, if_pos hn]

/-! ## Retrieval -/

theorem get_int_of_lookup (a : argparse) (key : String) (pt : parameter_t) (n : Int)
    (h : umap.lookup a.options key = some (some ⟨pt, slot.i n⟩)) :
    get_int a key = Except.ok (some n) := by
  unfold get_int stored_value umap.at_ umap.count
  simp only [h, Option.isSome_some, if_true]
  rfl

theorem get_string_of_lookup (a : argparse) (key : String) (pt : parameter_t) (v : String)
    (h : umap.lookup a.options key = some (some ⟨pt, slot.s v⟩)) :
    get_string a key = Except.ok (some v) := by
  unfold get_string stored_value umap.at_ umap.count
  simp only [h, Option.isSome_some, if_true]
  rfl

end arg

/-! ## The value map along a run -/

namespace arg

theorem apply_item_valued (stod : String → Except fault double) (s s1 : argparse)
    (id : String) (k : parameter_t) (val : String) (hk : k ≠ parameter_t.opt_none)
    (h : apply_item stod s (item.valued id k val) = Except.ok s1) :
    ∃ v, stored_of stod k val = some v ∧ s1.options = umap.assign s.options id (some v) := by
  cases k with
  | opt_none => exact absurd rfl hk
  | opt_string =>
    simp only [apply_item, Except.ok.injEq] at h
    subst h
    exact ⟨_, rfl, rfl⟩
  | opt_int =>
    obtain ⟨n, hn, hs⟩ := store_int_ok s s1 id val h
    subst hs
    refine ⟨⟨parameter_t.opt_int, slot.i n⟩, ?_, rfl⟩
    simp only [stored_of, hn]
  | opt_float =>
    obtain ⟨x, hx, hs⟩ := store_float_ok stod s s1 id val h
    subst hs
    refine ⟨⟨parameter_t.opt_float, slot.f x⟩, ?_, rfl⟩
    simp only [stored_of, hx]

theorem apply_item_other (stod : String → Except fault double) (s s1 : argparse)
    (it : item) (key : String) (hne : ∀ k val, it ≠ item.valued key k val)
    (h : apply_item stod s it = Except.ok s1) :
    umap.lookup s1.options key = umap.lookup s.options key := by
  cases it with
  | flag id =>
    simp only [apply_item, Except.ok.injEq] at h
    subst h
    rfl
  | dangling id =>
    simp only [apply_item, Except.ok.injEq] at h
    subst h
    rfl
  | ignored tok =>
    simp only [apply_item, Except.ok.injEq] at h
    subst h
    rfl
  | valued id k val =>
    have hid : ¬ id = key := by
      intro e
      subst e
      exact hne k val rfl
    by_cases hk : k = parameter_t.opt_none
    · subst hk
      simp only [apply_item, Except.ok.injEq] at h
      subst h
      rfl
    · obtain ⟨v, _, ho⟩ := apply_item_valued stod s s1 id k val hk h
      rw [ho, umap.lookup_assign, if_neg hid]

theorem run_lookup_unchanged (stod : String → Except fault double) (key : String)
    (its : List item) : ∀ s : argparse, (∀ k val, item.valued key k val ∉ its) →
      umap.lookup (run stod s its).1.options key = umap.lookup s.options key := by
  induction its with
  | nil => intro s _; rw [run_nil]
  | cons x xs ih =>
    intro s hno
    cases hx : apply_item stod s x with
    | error e => rw [run_cons_error stod s x _ e hx]
    | ok s1 =>
      rw [run_cons_ok stod s s1 x _ hx, ih s1 (fun k val hm => hno k val (List.mem_cons_of_mem _ hm))]
      apply apply_item_other stod s s1 x key _ hx
      intro k val e
      exact hno k val (e ▸ List.mem_cons_self _ _)

theorem run_last_value (stod : String → Except fault double) (s : argparse)
    (xs ys : List item) (id : String) (k : parameter_t) (val : String)
    (hk : k ≠ parameter_t.opt_none)
    (hf : (run stod s (xs ++ item.valued id k val :: ys)).2 = none)
    (hlast : ∀ k1 v1, item.valued id k1 v1 ∉ ys) :
    ∃ v, stored_of stod k val = some v ∧
      umap.lookup (run stod s (xs ++ item.valued id k val :: ys)).1.options id = some (some v) := by
  rw [run_append] at hf ⊢
  cases hxs : run stod s xs with
  | mk s1 f1 =>
    rw [hxs] at hf
    cases f1 with
    | some e => cases hf
    | none =>
      dsimp only at hf ⊢
      cases hx : apply_item stod s1 (item.valued id k val) with
      | error e =>
        rw [run_cons_error stod s1 _ _ e hx] at hf
        cases hf
      | ok s2 =>
        rw [run_cons_ok stod s1 s2 _ _ hx]
        obtain ⟨v, hv, ho⟩ := apply_item_valued stod s1 s2 id k val hk hx
        refine ⟨v, hv, ?_⟩
        rw [run_lookup_unchanged stod id ys s2 hlast, ho, umap.lookup_assign, if_pos rfl]

theorem run_has_value_mono (stod : String → Except fault double) (key : String)
    (its : List item) : ∀ s : argparse, has_value s.options key = true →
      has_value (run stod s its).1.options key = true := by
  induction its with
  | nil => intro s h; rw [run_nil]; exact h
  | cons x xs ih =>
    intro s h
    cases hx : apply_item stod s x with
    | error e => rw [run_cons_error stod s x _ e hx]; exact h
    | ok s1 =>
      rw [run_cons_ok stod s s1 x _ hx]
      apply ih s1
      by_cases hne : ∀ k val, x ≠ item.valued key k val
      · unfold has_value
        rw [apply_item_other stod s s1 x key hne hx]
        exact h
      · push_neg at hne
        obtain ⟨k, val, e⟩ := hne
        subst e
        by_cases hk : k = parameter_t.opt_none
        · subst hk
          simp only [apply_item, Except.ok.injEq] at hx
          subst hx
          exact h
        · obtain ⟨v, _, ho⟩ := apply_item_valued stod s s1 key k val hk hx
          rw [ho, has_value_assign_some]
          simp

theorem run_has_value_mem (stod : String → Except fault double) (key : String)
    (its : List item) : ∀ s : argparse, (run stod s its).2 = none →
      (∃ k val, k ≠ parameter_t.opt_none ∧ item.valued key k val ∈ its) →
      has_value (run stod s its).1.options key = true := by
  induction its with
  | nil =>
    intro s _ h
    obtain ⟨k, val, _, hm⟩ := h
    cases hm
  | cons x xs ih =>
    intro s hf h
    obtain ⟨k, val, hk, hm⟩ := h
    cases hx : apply_item stod s x with
    | error e =>
      rw [run_cons_error stod s x _ e hx] at hf
      cases hf
    | ok s1 =>
      rw [run_cons_ok stod s s1 x _ hx] at hf ⊢
      rcases List.mem_cons.1 hm with e | hm1
      · subst e
        obtain ⟨v, _, ho⟩ := apply_item_valued stod s s1 key k val hk hx
        apply run_has_value_mono
        rw [ho, has_value_assign_some]
        simp
      · exact ih s1 hf ⟨k, val, hk, hm1⟩

theorem run_has_value_inv (stod : String → Except fault double) (key : String)
    (its : List item) : ∀ s : argparse, has_value (run stod s its).1.options key = true →
      has_value s.options key = true ∨ ∃ k val, item.valued key k val ∈ its := by
  induction its with
  | nil => intro s h; rw [run_nil] at h; exact Or.inl h
  | cons x xs ih =>
    intro s h
    cases hx : apply_item stod s x with
    | error e =>
      rw [run_cons_error stod s x _ e hx] at h
      exact Or.inl h
    | ok s1 =>
      rw [run_cons_ok stod s s1 x _ hx] at h
      rcases ih s1 h with h1 | ⟨k, val, hm⟩
      · by_cases hne : ∀ k val, x ≠ item.valued key k val
        · left
          unfold has_value at h1 ⊢
          rw [apply_item_other stod s s1 x key hne hx] at h1
          exact h1
        · push_neg at hne
          obtain ⟨k, val, e⟩ := hne
          exact Or.inr ⟨k, val, e ▸ List.mem_cons_self _ _⟩
      · exact Or.inr ⟨k, val, List.mem_cons_of_mem _ hm⟩

theorem run_written_congr (stod : String → Except fault double) (its : List item) :
    ∀ s t : argparse, written s = written t →
      written (run stod s its).1 = written (run stod t its).1 ∧
        (run stod s its).2 = (run stod t its).2 := by
  induction its with
  | nil => intro s t h; rw [run_nil, run_nil]; exact ⟨h, rfl⟩
  | cons x xs ih =>
    intro s t h
    cases hx : apply_item stod s x with
    | error e =>
      rw [run_cons_error stod s x _ e hx,
        run_cons_error stod t x _ e (apply_item_state_free stod s t x e hx)]
      exact ⟨h, rfl⟩
    | ok s1 =>
      cases hy : apply_item stod t x with
      | error e =>
        have := apply_item_state_free stod t s x e hy
        rw [hx] at this
        cases this
      | ok t1 =>
        rw [run_cons_ok stod s s1 x _ hx, run_cons_ok stod t t1 x _ hy]
        apply ih
        unfold written at h ⊢
        simp only [Prod.mk.injEq] at h
        obtain ⟨h1, h2, h3⟩ := h
        cases x with
        | flag id =>
          simp only [apply_item, Except.ok.injEq] at hx hy
          subst hx hy
          simp [store_flag, h1, h2, h3]
        | dangling id =>
          simp only [apply_item, Except.ok.injEq] at hx hy
          subst hx hy
          simp [h1, h2, h3]
        | ignored tok =>
          simp only [apply_item, Except.ok.injEq] at hx hy
          subst hx hy
          simp [h1, h2, h3]
        | valued id k val =>
          cases k with
          | opt_none =>
            simp only [apply_item, Except.ok.injEq] at hx hy
            subst hx hy
            simp [h1, h2, h3]
          | opt_string =>
            simp only [apply_item, Except.ok.injEq] at hx hy
            subst hx hy
            simp [store_string, h1, h2, h3]
          | opt_int =>
            obtain ⟨n, hn, hs⟩ := store_int_ok s s1 id val hx
            obtain ⟨n1, hn1, hs1⟩ := store_int_ok t t1 id val hy
            rw [hn] at hn1
            cases hn1
            subst hs hs1
            simp [h1, h2, h3]
          | opt_float =>
            obtain ⟨n, hn, hs⟩ := store_float_ok stod s s1 id val hx
            obtain ⟨n1, hn1, hs1⟩ := store_float_ok stod t t1 id val hy
            rw [hn] at hn1
            cases hn1
            subst hs hs1
            simp [h1, h2, h3]

end arg

/-! ## The walk -/

namespace arg

theorem scan_items_ok_aux (a : argparse) : ∀ (n : Nat) (args : List String), args.length ≤ n →
    ∀ it ∈ scan a args, item_ok a it := by
  intro n
  induction n with
  | zero =>
    intro args hl it hm
    have h0 : args = [] := List.length_eq_zero.1 (Nat.le_zero.1 hl)
    subst h0
    rw [scan_nil] at hm
    cases hm
  | succ n ih =>
    intro args hl it hm
    cases args with
    | nil => rw [scan_nil] at hm; cases hm
    | cons tok rest =>
      have hrest : rest.length ≤ n := by simpa using hl
      cases hr : resolve a tok with
      | none =>
        rw [scan_ignored a tok rest hr] at hm
        rcases List.mem_cons.1 hm with e | hm1
        · subst e; exact hr
        · exact ih rest hrest it hm1
      | some id =>
        by_cases hk : kind_of a id = parameter_t.opt_none
        · rw [scan_flag a tok id rest hr hk] at hm
          rcases List.mem_cons.1 hm with e | hm1
          · subst e; exact ⟨⟨tok, hr⟩, hk⟩
          · exact ih rest hrest it hm1
        · cases rest with
          | nil =>
            rw [scan_dangling a tok id hr hk] at hm
            rw [List.mem_singleton] at hm
            subst hm
            exact ⟨⟨tok, hr⟩, hk⟩
          | cons val rest1 =>
            have hrest1 : rest1.length ≤ n := by
              simp only [List.length_cons] at hrest
              omega
            rw [scan_valued a tok id val rest1 hr hk] at hm
            rcases List.mem_cons.1 hm with e | hm1
            · subst e; exact ⟨⟨tok, hr⟩, rfl, hk⟩
            · exact ih rest1 hrest1 it hm1

theorem scan_items_ok (a : argparse) (args : List String) :
    ∀ it ∈ scan a args, item_ok a it :=
  scan_items_ok_aux a args.length args (Nat.le_refl _)

theorem scan_append_aux (a : argparse) : ∀ (n : Nat) (pre : List String), pre.length ≤ n →
    complete a pre = true → ∀ post, scan a (pre ++ post) = scan a pre ++ scan a post := by
  intro n
  induction n with
  | zero =>
    intro pre hl _ post
    have h0 : pre = [] := List.length_eq_zero.1 (Nat.le_zero.1 hl)
    subst h0
    rw [scan_nil]
    rfl
  | succ n ih =>
    intro pre hl hc post
    cases pre with
    | nil => rw [scan_nil]; rfl
    | cons tok rest =>
      have hrest : rest.length ≤ n := by simpa using hl
      unfold complete at hc
      cases hr : resolve a tok with
      | none =>
        rw [scan_ignored a tok rest hr, List.all_cons] at hc
        rw [List.cons_append, scan_ignored a tok _ hr, scan_ignored a tok rest hr,
          ih rest hrest (Bool.and_eq_true_iff.1 hc).2 post]
        rfl
      | some id =>
        by_cases hk : kind_of a id = parameter_t.opt_none
        · rw [scan_flag a tok id rest hr hk, List.all_cons] at hc
          rw [List.cons_append, scan_flag a tok id _ hr hk, scan_flag a tok id rest hr hk,
            ih rest hrest (Bool.and_eq_true_iff.1 hc).2 post]
          rfl
        · cases rest with
          | nil =>
            rw [scan_dangling a tok id hr hk] at hc
            simp [is_dangling] at hc
          | cons val rest1 =>
            have hrest1 : rest1.length ≤ n := by
              simp only [List.length_cons] at hrest
              omega
            rw [scan_valued a tok id val rest1 hr hk, List.all_cons] at hc
            rw [List.cons_append, List.cons_append, scan_valued a tok id val _ hr hk,
              scan_valued a tok id val rest1 hr hk,
              ih rest1 hrest1 (Bool.and_eq_true_iff.1 hc).2 post]
            rfl

theorem scan_append (a : argparse) (pre post : List String) (hc : complete a pre = true) :
    scan a (pre ++ post) = scan a pre ++ scan a post :=
  scan_append_aux a pre.length pre (Nat.le_refl _) hc post

/-- The loop is left without an exception exactly when every conversion that
the walk asks for succeeds. -/
theorem loop_fault_none_iff (stod : String → Except fault double) (a : argparse)
    (h : aliases_declared a) (args : List String) :
    (parse_loop stod a args).2 = none ↔ ∀ it ∈ scan a args, converts stod it = true := by
  rw [parse_loop_eq_run stod a h args]
  exact run_fault_none_iff stod _ a

end arg

/-! ## Properties of `parse` and the accessors -/

namespace arg

theorem option_maps (a : argparse) (id short_id : String) (k : parameter_t) (helpstr : String)
    (required : Bool) :
    (option a id short_id k helpstr required).defined_set = umap.assign a.defined_set id k ∧
      (option a id short_id k helpstr required).short_map =
        (if short_id ≠ "" then umap.assign a.short_map short_id id else a.short_map) := by
  unfold option
  by_cases hs : short_id ≠ "" <;> cases required <;> simp [hs]

theorem parse_pair_int (stod : String → Except fault double) (a : argparse)
    (hwf : aliases_declared a) (argv0 tok id val : String) (n : Int)
    (hr : resolve a tok = some id) (hk : kind_of a id = parameter_t.opt_int)
    (hs : stoi val = Except.ok n) :
    get_int (parse stod a argv0 [tok, val]).state id = Except.ok (some n) := by
  have hk1 : kind_of a id ≠ parameter_t.opt_none := by rw [hk]; decide
  have hx : apply_item stod (named a argv0) (item.valued id parameter_t.opt_int val) =
      Except.ok { named a argv0 with
        options := (umap.assign (named a argv0).options id
          (some ⟨parameter_t.opt_int, slot.i n⟩)) } := by
    simp only [apply_item, store_int, hs]
  rw [parse_eq stod a hwf, scan_valued a tok id val [] hr hk1, hk, scan_nil,
    run_cons_ok stod _ _ _ _ hx, run_nil]
  dsimp only
  apply get_int_of_lookup _ id parameter_t.opt_int n
  rw [validate_lookup_value]
  exact (umap.lookup_assign _ id id _).trans (if_pos rfl)

/-- C1. Alias round trip: once `--value` is declared with alias `-v` and kind
`opt_int`, and `--value` is not itself registered as an alias, parsing
`[prog, "-v", decimal n]` and parsing `[prog, "--value", decimal n]` both leave
`get<int>("--value")` equal to the non-empty optional holding `n`, for every
`int` value `n`. -/
theorem alias_round_trip (stod : String → Except fault double) (name : String)
    (ds : List decl) (helpstr : String) (required : Bool) (argv0 : String) (n : Int)
    (hn : INT_MIN ≤ n ∧ n ≤ INT_MAX)
    (hv : is_short (option (declare (argparse.create name) ds) "--value" "-v"
      parameter_t.opt_int helpstr required) "--value" = false) :
    get_int (parse stod (option (declare (argparse.create name) ds) "--value" "-v"
        parameter_t.opt_int helpstr required) argv0 ["-v", decimal n]).state "--value"
      = Except.ok (some n) ∧
    get_int (parse stod (option (declare (argparse.create name) ds) "--value" "-v"
        parameter_t.opt_int helpstr required) argv0 ["--value", decimal n]).state "--value"
      = Except.ok (some n) := by
  have hwf := aliases_declared_option _ (declared_aliases name ds) "--value" "-v"
    parameter_t.opt_int helpstr required
  obtain ⟨hd, hsm⟩ := option_maps (declare (argparse.create name) ds) "--value" "-v"
    parameter_t.opt_int helpstr required
  rw [if_pos (by decide)] at hsm
  generalize option (declare (argparse.create name) ds) "--value" "-v"
    parameter_t.opt_int helpstr required = a at hwf hd hsm hv ⊢
  have hld : umap.lookup a.defined_set "--value" = some parameter_t.opt_int := by
    rw [hd]
    exact (umap.lookup_assign _ _ _ _).trans (if_pos rfl)
  have hls : umap.lookup a.short_map "-v" = some "--value" := by
    rw [hsm]
    exact (umap.lookup_assign _ _ _ _).trans (if_pos rfl)
  have hk := kind_of_eq a "--value" parameter_t.opt_int hld
  have hr1 : resolve a "-v" = some "--value" := by
    have hc : umap.count a.short_map "-v" = true := (umap.count_eq_true _ _).2 ⟨_, hls⟩
    unfold resolve resolve_in
    rw [hc, umap.subscript_fst, hls]
    simp
  have hr2 : resolve a "--value" = some "--value" := by
    have hc : umap.count a.defined_set "--value" = true := (umap.count_eq_true _ _).2 ⟨_, hld⟩
    unfold is_short at hv
    unfold resolve resolve_in
    rw [hc, hv]
    simp
  exact ⟨parse_pair_int stod a hwf argv0 "-v" "--value" _ n hr1 hk (stoi_decimal n hn),
    parse_pair_int stod a hwf argv0 "--value" "--value" _ n hr2 hk (stoi_decimal n hn)⟩

/-- Instance of the alias round trip: `--help` declared before `--value`, and
the value 42. -/
theorem alias_round_trip_witness :
    get_int (parse stod_none (option (declare (argparse.create "")
        [⟨"--help", "-h", parameter_t.opt_none, "show this text", false⟩]) "--value" "-v"
        parameter_t.opt_int "set a value" true) "prog" ["-v", decimal 42]).state "--value"
      = Except.ok (some 42) ∧
    get_int (parse stod_none (option (declare (argparse.create "")
        [⟨"--help", "-h", parameter_t.opt_none, "show this text", false⟩]) "--value" "-v"
        parameter_t.opt_int "set a value" true) "prog" ["--value", decimal 42]).state "--value"
      = Except.ok (some 42) :=
  alias_round_trip stod_none "" [⟨"--help", "-h", parameter_t.opt_none, "show this text", false⟩]
    "set a value" true "prog" 42 (by decide) (by decide)

end arg

namespace arg

/-- C2, as stated, fails: with `--b` registered as the alias of `--a` and
declared as a required `opt_int` option, the argument list `[prog, "--b", "5"]`
has the required option in option position, by its id, followed by a valid
value token, and no conversion fails; the token is filed under `--a`, the parse
is valid, and `get<int>("--b")` raises `bad_optional_access` instead of
returning 5. -/
theorem required_by_id_counterexample :
    (declare (argparse.create "") shadow_decls).required_set = ["--b"] ∧
    kind_of (declare (argparse.create "") shadow_decls) "--b" = parameter_t.opt_int ∧
    (parse_loop stod_none (declare (argparse.create "") shadow_decls) ["--b", "5"]).2 = none ∧
    stoi "5" = Except.ok 5 ∧
    is_valid (parse stod_none (declare (argparse.create "") shadow_decls) "prog"
      ["--b", "5"]).state = true ∧
    get_int (parse stod_none (declare (argparse.create "") shadow_decls) "prog"
      ["--b", "5"]).state "--b" = Except.error fault.bad_optional_access ∧
    get_int (parse stod_none (declare (argparse.create "") shadow_decls) "prog"
      ["--b", "5"]).state "--a" = Except.ok (some 5) :=
  ⟨by decide, by decide, by decide, rfl, by decide, rfl, rfl⟩

/-- C3. The scenario of the specification holds (`[prog, "-h"]` is invalid
while `--help` is seen), but a missing required option does not always make the
parse invalid: with `--b` registered as the alias of `--a` and declared as a
required option, `[prog, "--a", "1"]` never gives `--b`, and `is_valid()` is
true. -/
theorem missing_required_accepted :
    (is_valid (parse stod_none (declare (argparse.create "") scenario_decls) "prog"
        ["-h"]).state = false ∧
      has_flag (parse stod_none (declare (argparse.create "") scenario_decls) "prog"
        ["-h"]).state ["--help"] = true) ∧
    is_required (declare (argparse.create "") shadow_decls) "--b" = true ∧
    scan (declare (argparse.create "") shadow_decls) ["--a", "1"] =
      [item.valued "--a" parameter_t.opt_int "1"] ∧
    (parse stod_none (declare (argparse.create "") shadow_decls) "prog"
      ["--a", "1"]).escaped = none ∧
    is_valid (parse stod_none (declare (argparse.create "") shadow_decls) "prog"
      ["--a", "1"]).state = true :=
  ⟨⟨by decide, by decide⟩, by decide, by decide, by decide, by decide⟩

/-- C4. A valid parse does not guarantee a value for every required option:
with `--b` registered as the alias of `--a` and declared as a required option,
after `[prog, "--a", "1"]` the parse is valid, the value map holds no value
under `--b`, and `get<int>("--b")`, `get<std::string>("--b")` raise
`bad_optional_access`. -/
theorem valid_without_value :
    is_required (declare (argparse.create "") shadow_decls) "--b" = true ∧
    is_valid (parse stod_none (declare (argparse.create "") shadow_decls) "prog"
      ["--a", "1"]).state = true ∧
    has_value (parse stod_none (declare (argparse.create "") shadow_decls) "prog"
      ["--a", "1"]).state.options "--b" = false ∧
    get_int (parse stod_none (declare (argparse.create "") shadow_decls) "prog"
      ["--a", "1"]).state "--b" = Except.error fault.bad_optional_access ∧
    get_string (parse stod_none (declare (argparse.create "") shadow_decls) "prog"
      ["--a", "1"]).state "--b" = Except.error fault.bad_optional_access :=
  ⟨by decide, by decide, by decide, rfl, rfl⟩

/-- C5, as stated, fails: a required Flag option that is passed is in the
seen-flags set, the parse is not aborted, and `is_valid()` is false. -/
theorem required_flag_counterexample :
    (parse_loop stod_none (declare (argparse.create "") force_decls) ["--force"]).2 = none ∧
    ¬ (is_valid (parse stod_none (declare (argparse.create "") force_decls) "prog"
        ["--force"]).state = true ↔
      ∀ id ∈ (declare (argparse.create "") force_decls).required_set,
        umap.count (parse stod_none (declare (argparse.create "") force_decls) "prog"
          ["--force"]).state.options id = true ∨
        uset.count (parse stod_none (declare (argparse.create "") force_decls) "prog"
          ["--force"]).state.flag_set id = true) :=
  ⟨by decide, by decide⟩

/-- C7. A decimal number too large for an `int` is not surfaced as
`is_valid() == false`: `std::out_of_range` escapes `parse`. A token that is not
numeric at all is caught. -/
theorem out_of_range_escapes :
    (parse stod_none (declare (argparse.create "") (value_decls false)) "prog"
      ["--value", "99999999999"]).escaped = some fault.out_of_range ∧
    stoi "99999999999" = Except.error fault.out_of_range ∧
    (parse stod_none (declare (argparse.create "") (value_decls false)) "prog"
      ["--value", "notanumber"]).escaped = none ∧
    is_valid (parse stod_none (declare (argparse.create "") (value_decls false)) "prog"
      ["--value", "notanumber"]).state = false :=
  ⟨by decide, rfl, by decide, by decide⟩

/-- C8, as stated, fails: the value token `42` matches no declared id and no
declared alias, the parse is not aborted, and the ignored list is empty. -/
theorem value_token_counterexample :
    (parse_loop stod_none (declare (argparse.create "") (value_decls false))
      ["--value", "42"]).2 = none ∧
    ["--value", "42"].filter (fun t =>
      !(is_defined (declare (argparse.create "") (value_decls false)) t ||
        is_short (declare (argparse.create "") (value_decls false)) t)) = ["42"] ∧
    ignored_opts (parse stod_none (declare (argparse.create "") (value_decls false)) "prog"
      ["--value", "42"]).state = [] :=
  ⟨by decide, by decide, by decide⟩

/-- C10. For a required option that is missing, no value is stored and the
typed accessors raise `bad_optional_access` instead of returning an empty
optional: validation has inserted an empty entry under the id. -/
theorem missing_required_get_raises :
    scan (declare (argparse.create "") (value_decls true)) [] = [] ∧
    has_value (parse stod_none (declare (argparse.create "") (value_decls true)) "prog"
      []).state.options "--value" = false ∧
    has_opt (parse stod_none (declare (argparse.create "") (value_decls true)) "prog"
      []).state ["--value"] = true ∧
    get_int (parse stod_none (declare (argparse.create "") (value_decls true)) "prog"
      []).state "--value" = Except.error fault.bad_optional_access ∧
    get_double (parse stod_none (declare (argparse.create "") (value_decls true)) "prog"
      []).state "--value" = Except.error fault.bad_optional_access ∧
    get_string (parse stod_none (declare (argparse.create "") (value_decls true)) "prog"
      []).state "--value" = Except.error fault.bad_optional_access :=
  ⟨by decide, by decide, by decide, rfl, rfl, rfl⟩

end arg

namespace arg

theorem declared_fields (name : String) (ds : List decl) :
    (declare (argparse.create name) ds).flag_set = [] ∧
      (declare (argparse.create name) ds).options = [] ∧
      (declare (argparse.create name) ds).ignored_options = [] := by
  have h := declared_written name ds
  unfold written at h
  simp only [Prod.mk.injEq] at h
  exact h

theorem run_named_fields (stod : String → Except fault double) (a : argparse) (argv0 : String)
    (its : List item) :
    (run stod (named a argv0) its).1.required_set = a.required_set ∧
      (run stod (named a argv0) its).1.short_map = a.short_map ∧
      (run stod (named a argv0) its).1.valid = a.valid := by
  have h := run_unwritten stod its (named a argv0)
  obtain ⟨_, h2, h3, h4, _⟩ := named_fields a argv0
  unfold unwritten at h
  simp only [Prod.mk.injEq] at h
  obtain ⟨_, _, g3, _, g5, _, g7⟩ := h
  exact ⟨g5.trans h3, g3.trans h4, g7.trans h2⟩

/-- A parse whose loop is left without an exception ends in validation. -/
theorem parse_not_aborted (stod : String → Except fault double) (a : argparse)
    (hwf : aliases_declared a) (argv0 : String) (args : List String)
    (hf : (parse_loop stod a args).2 = none) :
    (run stod (named a argv0) (scan a args)).2 = none ∧
    parse stod a argv0 args =
      ⟨validate (mark_valid (run stod (named a argv0) (scan a args)).1)
        a.required_set, none⟩ := by
  have hc := (loop_fault_none_iff stod a hwf args).1 hf
  have hr := (run_fault_none_iff stod (scan a args) (named a argv0)).2 hc
  refine ⟨hr, ?_⟩
  rw [parse_eq stod a hwf, ← (run_named_fields stod a argv0 (scan a args)).1]
  cases hrun : run stod (named a argv0) (scan a args) with
  | mk s f =>
    rw [hrun] at hr
    dsimp only at hr
    subst hr
    rfl

/-- C8, amended. When the parse is not aborted, `ignored_opts()` is exactly the
list, in encounter order and verbatim, of the tokens in option position that
match no declared id and no declared alias. A token consumed as the value of a
typed option is not in option position. -/
theorem ignored_in_option_position (stod : String → Except fault double) (name : String)
    (ds : List decl) (argv0 : String) (args : List String)
    (hf : (parse_loop stod (declare (argparse.create name) ds) args).2 = none) :
    ignored_opts (parse stod (declare (argparse.create name) ds) argv0 args).state =
      ignored_tokens (scan (declare (argparse.create name) ds) args) := by
  have hwf := declared_aliases name ds
  obtain ⟨hr, hp⟩ := parse_not_aborted stod _ hwf argv0 args hf
  rw [hp]
  show (validate _ _).ignored_options = _
  rw [(validate_keeps _ _).2]
  show (run stod _ _).1.ignored_options = _
  rw [run_ignored stod _ _ hr]
  have h1 : (named (declare (argparse.create name) ds) argv0).ignored_options = [] := by
    have := (named_fields (declare (argparse.create name) ds) argv0).1
    unfold written at this
    simp only [Prod.mk.injEq] at this
    rw [this.2.2]
    exact (declared_fields name ds).2.2
  rw [h1]
  rfl

/-- Instance for the declarations of `src/example.cpp`: two unknown tokens
around a typed option with its value. -/
theorem ignored_in_option_position_witness :
    ignored_opts (parse stod_none (declare (argparse.create "") example_decls) "prog"
      ["--bogus", "-v", "42", "extra", "-q"]).state = ["--bogus", "extra"] :=
  ignored_in_option_position stod_none "" example_decls "prog"
    ["--bogus", "-v", "42", "extra", "-q"] (by decide)

end arg

namespace arg

theorem has_value_nil (key : String) : has_value [] key = false := by
  unfold has_value umap.lookup
  rfl

/-- Nothing is stored under a key that is not a declared id. -/
theorem no_value_undeclared (stod : String → Except fault double) (a : argparse)
    (hwf : aliases_declared a) (argv0 : String) (args : List String) (key : String)
    (hd : is_defined a key = false) (h0 : a.options = []) :
    has_value (run stod (named a argv0) (scan a args)).1.options key = false := by
  cases hv : has_value (run stod (named a argv0) (scan a args)).1.options key with
  | false => rfl
  | true =>
    exfalso
    rcases run_has_value_inv stod key _ _ hv with h1 | ⟨k, val, hm⟩
    · have hn := (named_fields a argv0).1
      unfold written at hn
      simp only [Prod.mk.injEq] at hn
      rw [hn.2.1, h0, has_value_nil] at h1
      cases h1
    · obtain ⟨⟨tok, hr⟩, _⟩ := scan_items_ok a args _ hm
      obtain ⟨k1, hk1⟩ := resolve_declared a hwf tok key hr
      unfold is_defined at hd
      rw [(umap.count_eq_true _ _).2 ⟨k1, hk1⟩] at hd
      cases hd

/-- C5, amended. For declarations in which no required id is also registered as
a short alias and the empty string is not a declared id, and every argument
list whose parse is not aborted: `is_valid()` is true if and only if every id
in the required set holds a value in the parsed-value map. The seen-flags set
is not consulted. -/
theorem valid_iff_required_values (stod : String → Except fault double) (name : String)
    (ds : List decl) (argv0 : String) (args : List String)
    (hf : (parse_loop stod (declare (argparse.create name) ds) args).2 = none)
    (hal : ∀ id ∈ (declare (argparse.create name) ds).required_set,
      is_short (declare (argparse.create name) ds) id = false)
    (hemp : is_defined (declare (argparse.create name) ds) "" = false) :
    is_valid (parse stod (declare (argparse.create name) ds) argv0 args).state = true ↔
      ∀ id ∈ (declare (argparse.create name) ds).required_set,
        has_value (parse stod (declare (argparse.create name) ds) argv0 args).state.options id
          = true := by
  have hwf := declared_aliases name ds
  have h0 := (declared_fields name ds).2.1
  generalize declare (argparse.create name) ds = a at hf hal hemp hwf h0 ⊢
  obtain ⟨_, hp⟩ := parse_not_aborted stod a hwf argv0 args hf
  have hempty := no_value_undeclared stod a hwf argv0 args "" hemp h0
  have hsm := (run_named_fields stod a argv0 (scan a args)).2.1
  rw [hp]
  show (validate _ _).valid = true ↔ ∀ id ∈ a.required_set, has_value (validate _ _).options id = true
  rw [validate_valid]
  show (true && List.all _ _) = true ↔ _
  rw [Bool.true_and, List.all_eq_true]
  have key : ∀ id ∈ a.required_set,
      supplied (mark_valid (run stod (named a argv0) (scan a args)).1) id =
        has_value (run stod (named a argv0) (scan a args)).1.options id := by
    intro id hid
    have hs : umap.lookup a.short_map id = none := (umap.count_eq_false _ _).1 (hal id hid)
    show (has_value (run stod (named a argv0) (scan a args)).1.options id ||
      has_value (run stod (named a argv0) (scan a args)).1.options
        (umap.subscript (run stod (named a argv0) (scan a args)).1.short_map id "").1) = _
    rw [hsm, umap.subscript_fst, hs]
    simp only [Option.getD_none]
    rw [hempty, Bool.or_false]
  constructor
  · intro h id hid
    rw [validate_has_value]
    show has_value (run stod (named a argv0) (scan a args)).1.options id = true
    rw [← key id hid]
    exact h id hid
  · intro h id hid
    rw [key id hid]
    have := h id hid
    rw [validate_has_value] at this
    exact this

/-- Instance for the declarations of `src/example.cpp`: both required options
given, and a required option missing. -/
theorem valid_iff_required_values_witness :
    (is_valid (parse stod_none (declare (argparse.create "") example_decls) "prog"
        ["-v", "42", "-s", "hello"]).state = true ↔
      ∀ id ∈ (declare (argparse.create "") example_decls).required_set,
        has_value (parse stod_none (declare (argparse.create "") example_decls) "prog"
          ["-v", "42", "-s", "hello"]).state.options id = true) ∧
    is_valid (parse stod_none (declare (argparse.create "") example_decls) "prog"
        ["-v", "42", "-s", "hello"]).state = true :=
  ⟨valid_iff_required_values stod_none "" example_decls "prog" ["-v", "42", "-s", "hello"]
    (by decide) (by decide) (by decide), by decide⟩

theorem stored_of_int (stod : String → Except fault double) (val : String) (v : args_t)
    (h : stored_of stod parameter_t.opt_int val = some v) :
    ∃ n, stoi val = Except.ok n ∧ v = ⟨parameter_t.opt_int, slot.i n⟩ := by
  simp only [stored_of] at h
  cases hs : stoi val with
  | error e => rw [hs] at h; cases h
  | ok n =>
    rw [hs] at h
    exact ⟨n, rfl, (Option.some.inj h).symm⟩

/-- C2, amended. For every declaration set and every argument list in which
each required option occurs in option position as a token that the parser
resolves to its id (an alias is looked up first, so an id that is also
registered as an alias resolves to the alias's target), followed by a value
token, and in which no conversion fails: after `parse`, `is_valid()` is true,
and `get<int>(id)` / `get<std::string>(id)` return the value given at the last
occurrence of the option. -/
theorem required_values_retrieved (stod : String → Except fault double) (name : String)
    (ds : List decl) (argv0 : String) (args : List String)
    (hf : (parse_loop stod (declare (argparse.create name) ds) args).2 = none)
    (hreq : ∀ id ∈ (declare (argparse.create name) ds).required_set,
      ∃ k val, item.valued id k val ∈ scan (declare (argparse.create name) ds) args) :
    is_valid (parse stod (declare (argparse.create name) ds) argv0 args).state = true ∧
    ∀ (id : String) (k : parameter_t) (val : String) (xs ys : List item),
      scan (declare (argparse.create name) ds) args = xs ++ item.valued id k val :: ys →
      (∀ k1 v1, item.valued id k1 v1 ∉ ys) →
      (k = parameter_t.opt_int → ∃ n, stoi val = Except.ok n ∧
        get_int (parse stod (declare (argparse.create name) ds) argv0 args).state id
          = Except.ok (some n)) ∧
      (k = parameter_t.opt_string →
        get_string (parse stod (declare (argparse.create name) ds) argv0 args).state id
          = Except.ok (some val)) := by
  have hwf := declared_aliases name ds
  generalize declare (argparse.create name) ds = a at hf hreq hwf ⊢
  obtain ⟨hr, hp⟩ := parse_not_aborted stod a hwf argv0 args hf
  rw [hp]
  constructor
  · show (validate _ _).valid = true
    rw [validate_valid]
    show (true && List.all _ _) = true
    rw [Bool.true_and, List.all_eq_true]
    intro id hid
    obtain ⟨k, val, hm⟩ := hreq id hid
    have hk : k ≠ parameter_t.opt_none := (scan_items_ok a args _ hm).2.2
    have hv := run_has_value_mem stod id (scan a args) (named a argv0) hr ⟨k, val, hk, hm⟩
    show (has_value (run stod (named a argv0) (scan a args)).1.options id || _) = true
    rw [hv]
    rfl
  · intro id k val xs ys hsc hlast
    have hm : item.valued id k val ∈ scan a args := by
      rw [hsc]
      exact List.mem_append_right _ (List.mem_cons_self _ _)
    have hk : k ≠ parameter_t.opt_none := (scan_items_ok a args _ hm).2.2
    rw [hsc] at hr
    obtain ⟨v, hv, hl⟩ := run_last_value stod (named a argv0) xs ys id k val hk hr hlast
    rw [← hsc] at hl
    have hl2 := (validate_lookup_value a.required_set
      (mark_valid (run stod (named a argv0) (scan a args)).1) id v).2 hl
    constructor
    · intro hki
      subst hki
      obtain ⟨n, hn, hvn⟩ := stored_of_int stod val v hv
      subst hvn
      exact ⟨n, hn, get_int_of_lookup _ id _ n hl2⟩
    · intro hks
      subst hks
      have hvs : v = ⟨parameter_t.opt_string, slot.s val⟩ := by
        simp only [stored_of] at hv
        exact (Option.some.inj hv).symm
      subst hvs
      exact get_string_of_lookup _ id _ val hl2

end arg

namespace arg

/-- Instance for the declarations of `src/example.cpp`: `--value` is given
twice, by alias and by id, and the last value is the one retrieved. -/
theorem required_values_retrieved_witness :
    is_valid (parse stod_none (declare (argparse.create "") example_decls) "prog"
      ["-v", "42", "-s", "hello", "--value", "7"]).state = true ∧
    get_int (parse stod_none (declare (argparse.create "") example_decls) "prog"
      ["-v", "42", "-s", "hello", "--value", "7"]).state "--value" = Except.ok (some 7) ∧
    get_string (parse stod_none (declare (argparse.create "") example_decls) "prog"
      ["-v", "42", "-s", "hello", "--value", "7"]).state "--string"
        = Except.ok (some "hello") := by
  have hsc : scan (declare (argparse.create "") example_decls)
      ["-v", "42", "-s", "hello", "--value", "7"] =
      [item.valued "--value" parameter_t.opt_int "42",
       item.valued "--string" parameter_t.opt_string "hello",
       item.valued "--value" parameter_t.opt_int "7"] := by decide
  have hrs : (declare (argparse.create "") example_decls).required_set =
      ["--value", "--string"] := by decide
  have h := required_values_retrieved stod_none "" example_decls "prog"
    ["-v", "42", "-s", "hello", "--value", "7"] (by decide) (by
      intro id hid
      rw [hrs] at hid
      rw [hsc]
      simp only [List.mem_cons, List.mem_singleton, List.not_mem_nil, or_false] at hid
      rcases hid with e | e
      · subst e
        exact ⟨parameter_t.opt_int, "42", by decide⟩
      · subst e
        exact ⟨parameter_t.opt_string, "hello", by decide⟩)
  obtain ⟨n, hn, hg⟩ := (h.2 "--value" parameter_t.opt_int "7"
    [item.valued "--value" parameter_t.opt_int "42",
     item.valued "--string" parameter_t.opt_string "hello"] [] hsc
    (by intro k1 v1 hm; cases hm)).1 rfl
  have h7 : stoi "7" = Except.ok 7 := rfl
  rw [h7] at hn
  have hn7 : n = 7 := (Except.ok.inj hn).symm
  subst hn7
  refine ⟨h.1, hg, ?_⟩
  exact (h.2 "--string" parameter_t.opt_string "hello"
    [item.valued "--value" parameter_t.opt_int "42"]
    [item.valued "--value" parameter_t.opt_int "7"] hsc
    (by intro k1 v1 hm; simp at hm)).2 rfl

/-- C6. Fail-fast on conversion failure: when the arguments before position k
are walked without a failure and end in option position, and the token at
position k resolves to an Int or Float option whose value token does not
convert, then after `parse` the validity flag is false, and the value map, the
flag set and the ignored list are those that the loop accumulates from the
tokens before position k alone. `std::invalid_argument` is caught; any other
exception of the conversion leaves `parse`. -/
theorem conversion_failure_aborts (stod : String → Except fault double) (name : String)
    (ds : List decl) (argv0 : String) (pre : List String) (opt val : String)
    (post : List String) (id : String) (e : fault)
    (hpos : complete (declare (argparse.create name) ds) pre = true)
    (hpre : (parse_loop stod (declare (argparse.create name) ds) pre).2 = none)
    (hopt : resolve (declare (argparse.create name) ds) opt = some id)
    (hfail : (kind_of (declare (argparse.create name) ds) id = parameter_t.opt_int ∧
        stoi val = Except.error e) ∨
      (kind_of (declare (argparse.create name) ds) id = parameter_t.opt_float ∧
        stod val = Except.error e)) :
    is_valid (parse stod (declare (argparse.create name) ds) argv0
        (pre ++ opt :: val :: post)).state = false ∧
    (parse stod (declare (argparse.create name) ds) argv0
        (pre ++ opt :: val :: post)).state.options =
      (parse_loop stod (declare (argparse.create name) ds) pre).1.options ∧
    (parse stod (declare (argparse.create name) ds) argv0
        (pre ++ opt :: val :: post)).state.flag_set =
      (parse_loop stod (declare (argparse.create name) ds) pre).1.flag_set ∧
    ignored_opts (parse stod (declare (argparse.create name) ds) argv0
        (pre ++ opt :: val :: post)).state =
      (parse_loop stod (declare (argparse.create name) ds) pre).1.ignored_options ∧
    (parse stod (declare (argparse.create name) ds) argv0
        (pre ++ opt :: val :: post)).escaped =
      (if e = fault.invalid_argument then none else some e) := by
  have hwf := declared_aliases name ds
  have hv0 := declared_valid name ds
  generalize declare (argparse.create name) ds = a at hpos hpre hopt hfail hwf hv0 ⊢
  have hk1 : kind_of a id ≠ parameter_t.opt_none := by
    rcases hfail with ⟨hk, _⟩ | ⟨hk, _⟩ <;> rw [hk] <;> decide
  have hsc : scan a (pre ++ opt :: val :: post) =
      scan a pre ++ item.valued id (kind_of a id) val :: scan a post := by
    rw [scan_append a pre _ hpos, scan_valued a opt id val post hopt hk1]
  have hconv := (loop_fault_none_iff stod a hwf pre).1 hpre
  have hrun_pre := (run_fault_none_iff stod (scan a pre) (named a argv0)).2 hconv
  have hx : ∀ s, apply_item stod s (item.valued id (kind_of a id) val) = Except.error e := by
    intro s
    rcases hfail with ⟨hk, hs⟩ | ⟨hk, hs⟩
    · rw [hk]
      simp only [apply_item, store_int, hs]
    · rw [hk]
      simp only [apply_item, store_float, hs]
  have hrun : run stod (named a argv0) (scan a (pre ++ opt :: val :: post)) =
      ((run stod (named a argv0) (scan a pre)).1, some e) := by
    rw [hsc, run_append]
    cases hp : run stod (named a argv0) (scan a pre) with
    | mk p f =>
      rw [hp] at hrun_pre
      dsimp only at hrun_pre
      subst hrun_pre
      exact run_cons_error stod p _ _ e (hx p)
  have hw : written (run stod (named a argv0) (scan a pre)).1 =
      written (parse_loop stod a pre).1 := by
    rw [parse_loop_eq_run stod a hwf pre]
    exact (run_written_congr stod _ (named a argv0) a (named_fields a argv0).1).1
  have hval : (run stod (named a argv0) (scan a pre)).1.valid = false :=
    (run_named_fields stod a argv0 (scan a pre)).2.2.trans hv0
  unfold written at hw
  simp only [Prod.mk.injEq] at hw
  obtain ⟨w1, w2, w3⟩ := hw
  rw [parse_eq stod a hwf, hrun]
  cases e with
  | invalid_argument => exact ⟨rfl, w2, w1, w3, rfl⟩
  | out_of_range => exact ⟨hval, w2, w1, w3, rfl⟩
  | bad_optional_access => exact ⟨hval, w2, w1, w3, rfl⟩
  | inactive_member => exact ⟨hval, w2, w1, w3, rfl⟩

/-- Instance for the declarations of `src/example.cpp`: both required options
are supplied, `--param` gets the token `abc`, and what follows is not
processed. -/
theorem conversion_failure_aborts_witness :
    is_valid (parse stod_none (declare (argparse.create "") example_decls) "prog"
        (["-q", "zz", "-v", "1", "-s", "x"] ++ "-p" :: "abc" :: ["-h", "more"])).state = false ∧
    (parse stod_none (declare (argparse.create "") example_decls) "prog"
        (["-q", "zz", "-v", "1", "-s", "x"] ++ "-p" :: "abc" :: ["-h", "more"])).state.options =
      (parse_loop stod_none (declare (argparse.create "") example_decls)
        ["-q", "zz", "-v", "1", "-s", "x"]).1.options ∧
    (parse stod_none (declare (argparse.create "") example_decls) "prog"
        (["-q", "zz", "-v", "1", "-s", "x"] ++ "-p" :: "abc" :: ["-h", "more"])).state.flag_set =
      (parse_loop stod_none (declare (argparse.create "") example_decls)
        ["-q", "zz", "-v", "1", "-s", "x"]).1.flag_set ∧
    ignored_opts (parse stod_none (declare (argparse.create "") example_decls) "prog"
        (["-q", "zz", "-v", "1", "-s", "x"] ++ "-p" :: "abc" :: ["-h", "more"])).state =
      (parse_loop stod_none (declare (argparse.create "") example_decls)
        ["-q", "zz", "-v", "1", "-s", "x"]).1.ignored_options ∧
    (parse stod_none (declare (argparse.create "") example_decls) "prog"
        (["-q", "zz", "-v", "1", "-s", "x"] ++ "-p" :: "abc" :: ["-h", "more"])).escaped =
      (if fault.invalid_argument = fault.invalid_argument then none
        else some fault.invalid_argument) :=
  conversion_failure_aborts stod_none "" example_decls "prog"
    ["-q", "zz", "-v", "1", "-s", "x"] "-p" "abc" ["-h", "more"] "--param"
    fault.invalid_argument (by decide) (by decide) (by decide) (Or.inl ⟨by decide, rfl⟩)

end arg

namespace arg

theorem strip_nil (stod : String → Except fault double) (a : argparse) :
    strip_ignored stod a [] = [] := by
  unfold strip_ignored
  rfl

theorem strip_unmatched (stod : String → Except fault double) (a : argparse) (tok : String)
    (rest : List String) (hr : resolve a tok = none) :
    strip_ignored stod a (tok :: rest) = strip_ignored stod a rest := by
  rw [strip_ignored]
  simp only [hr]

theorem strip_flag (stod : String → Except fault double) (a : argparse) (tok id : String)
    (rest : List String) (hr : resolve a tok = some id)
    (hk : kind_of a id = parameter_t.opt_none) :
    strip_ignored stod a (tok :: rest) = tok :: strip_ignored stod a rest := by
  rw [strip_ignored]
  simp only [hr, hk]

theorem strip_dangling (stod : String → Except fault double) (a : argparse) (tok id : String)
    (hr : resolve a tok = some id) (hk : kind_of a id ≠ parameter_t.opt_none) :
    strip_ignored stod a [tok] = [tok] := by
  rw [strip_ignored]
  simp only [hr]

theorem strip_valued (stod : String → Except fault double) (a : argparse) (tok id val : String)
    (rest : List String) (hr : resolve a tok = some id)
    (hk : kind_of a id ≠ parameter_t.opt_none) :
    strip_ignored stod a (tok :: val :: rest) =
      if converts stod (item.valued id (kind_of a id) val) = true
      then tok :: val :: strip_ignored stod a rest else tok :: val :: rest := by
  rw [strip_ignored]
  simp only [hr]

theorem run_strip_aux (stod : String → Except fault double) (a : argparse) :
    ∀ (n : Nat) (args : List String), args.length ≤ n → ∀ (s : argparse) (ig : List String),
      run stod { s with ignored_options := ig } (scan a (strip_ignored stod a args)) =
        ({ (run stod s (scan a args)).1 with ignored_options := ig },
          (run stod s (scan a args)).2) := by
  intro n
  induction n with
  | zero =>
    intro args hl s ig
    have h0 : args = [] := List.length_eq_zero.1 (Nat.le_zero.1 hl)
    subst h0
    rw [strip_nil, scan_nil, run_nil, run_nil]
  | succ n ih =>
    intro args hl s ig
    cases args with
    | nil => rw [strip_nil, scan_nil, run_nil, run_nil]
    | cons tok rest =>
      have hrest : rest.length ≤ n := by simpa using hl
      cases hr : resolve a tok with
      | none =>
        rw [strip_unmatched stod a tok rest hr, scan_ignored a tok rest hr,
          run_cons_ok stod s _ (item.ignored tok) _ rfl]
        exact ih rest hrest { s with ignored_options := s.ignored_options ++ [tok] } ig
      | some id =>
        by_cases hk : kind_of a id = parameter_t.opt_none
        · rw [strip_flag stod a tok id rest hr hk, scan_flag a tok id _ hr hk,
            scan_flag a tok id rest hr hk, run_cons_ok stod s _ (item.flag id) _ rfl,
            run_cons_ok stod _ _ (item.flag id) _ rfl]
          exact ih rest hrest (store_flag s id) ig
        · cases rest with
          | nil =>
            rw [strip_dangling stod a tok id hr hk, scan_dangling a tok id hr hk,
              run_cons_ok stod s _ (item.dangling id) _ rfl,
              run_cons_ok stod _ _ (item.dangling id) _ rfl, run_nil, run_nil]
          | cons val rest1 =>
            have hrest1 : rest1.length ≤ n := by
              simp only [List.length_cons] at hrest
              omega
            rw [strip_valued stod a tok id val rest1 hr hk, scan_valued a tok id val rest1 hr hk]
            cases hx : apply_item stod s (item.valued id (kind_of a id) val) with
            | error e =>
              have hc := (apply_item_error_iff stod s _).1 ⟨e, hx⟩
              rw [hc, if_neg (by decide), scan_valued a tok id val rest1 hr hk,
                run_cons_error stod s _ _ e hx,
                run_cons_error stod _ _ _ e (apply_item_state_free stod s _ _ e hx)]
            | ok s1 =>
              have hc := (apply_item_ok_iff stod s _).1 ⟨s1, hx⟩
              have hy : apply_item stod { s with ignored_options := ig }
                  (item.valued id (kind_of a id) val) =
                  Except.ok { s1 with ignored_options := ig } := by
                cases hkk : kind_of a id with
                | opt_none => exact absurd hkk hk
                | opt_string =>
                  rw [hkk] at hx
                  simp only [apply_item, Except.ok.injEq] at hx
                  subst hx
                  rfl
                | opt_int =>
                  rw [hkk] at hx
                  obtain ⟨m, hm, hs⟩ := store_int_ok s s1 id val hx
                  subst hs
                  simp only [apply_item, store_int, hm]
                | opt_float =>
                  rw [hkk] at hx
                  obtain ⟨m, hm, hs⟩ := store_float_ok stod s s1 id val hx
                  subst hs
                  simp only [apply_item, store_float, hm]
              rw [if_pos hc, scan_valued a tok id val _ hr hk, run_cons_ok stod s s1 _ _ hx,
                run_cons_ok stod _ _ _ _ hy]
              exact ih rest1 hrest1 s1 ig

theorem run_strip (stod : String → Except fault double) (a : argparse) (args : List String)
    (s : argparse) (h0 : s.ignored_options = []) :
    run stod s (scan a (strip_ignored stod a args)) =
      (forget_ignored (run stod s (scan a args)).1, (run stod s (scan a args)).2) := by
  have h := run_strip_aux stod a args.length args (Nat.le_refl _) s []
  have hs : { s with ignored_options := [] } = s := by
    cases s
    simp only at h0
    subst h0
    rfl
  rw [hs] at h
  exact h

/-- C9. Ignored tokens do not influence the result: parsing the arguments
without the tokens that `parse` appended to the ignored list yields the same
`is_valid()`, the same flag set, the same value map and the same escaping
exception, and an empty ignored list. -/
theorem ignored_tokens_inert (stod : String → Except fault double) (name : String)
    (ds : List decl) (argv0 : String) (args : List String) :
    is_valid (parse stod (declare (argparse.create name) ds) argv0
        (strip_ignored stod (declare (argparse.create name) ds) args)).state =
      is_valid (parse stod (declare (argparse.create name) ds) argv0 args).state ∧
    (parse stod (declare (argparse.create name) ds) argv0
        (strip_ignored stod (declare (argparse.create name) ds) args)).state.flag_set =
      (parse stod (declare (argparse.create name) ds) argv0 args).state.flag_set ∧
    (parse stod (declare (argparse.create name) ds) argv0
        (strip_ignored stod (declare (argparse.create name) ds) args)).state.options =
      (parse stod (declare (argparse.create name) ds) argv0 args).state.options ∧
    ignored_opts (parse stod (declare (argparse.create name) ds) argv0
        (strip_ignored stod (declare (argparse.create name) ds) args)).state = [] ∧
    (parse stod (declare (argparse.create name) ds) argv0
        (strip_ignored stod (declare (argparse.create name) ds) args)).escaped =
      (parse stod (declare (argparse.create name) ds) argv0 args).escaped := by
  have hwf := declared_aliases name ds
  have h0 : (named (declare (argparse.create name) ds) argv0).ignored_options = [] := by
    have := (named_fields (declare (argparse.create name) ds) argv0).1
    unfold written at this
    simp only [Prod.mk.injEq] at this
    rw [this.2.2]
    exact (declared_fields name ds).2.2
  generalize declare (argparse.create name) ds = a at hwf h0 ⊢
  rw [parse_eq stod a hwf, parse_eq stod a hwf, run_strip stod a args _ h0]
  cases hrun : run stod (named a argv0) (scan a args) with
  | mk s f =>
    cases f with
    | none =>
      show (validate (mark_valid (forget_ignored s)) (forget_ignored s).required_set).valid =
          (validate (mark_valid s) s.required_set).valid ∧
        (validate (mark_valid (forget_ignored s)) (forget_ignored s).required_set).flag_set =
          (validate (mark_valid s) s.required_set).flag_set ∧
        (validate (mark_valid (forget_ignored s)) (forget_ignored s).required_set).options =
          (validate (mark_valid s) s.required_set).options ∧
        (validate (mark_valid (forget_ignored s))
          (forget_ignored s).required_set).ignored_options = [] ∧ none = none
      have e1 : mark_valid (forget_ignored s) = forget_ignored (mark_valid s) := rfl
      have e2 : (forget_ignored s).required_set = s.required_set := rfl
      rw [e1, e2, ← validate_forget]
      exact ⟨rfl, rfl, rfl, rfl, rfl⟩
    | some e =>
      cases e <;> exact ⟨rfl, rfl, rfl, rfl, rfl⟩

end arg

/-! ## What validation leaves in the maps -/

namespace arg

/-- C11. A declared Flag that is never passed is not always reported as
absent by `get<bool>`: `has_flag` is false, but validation inserts an empty
entry into the value map under a required id and under `short_map[key]`, and
`get<bool>` counts that entry. This happens for a Flag declared required, and
for a Flag whose alias is the id of a required option that is missing. A Flag
that validation does not touch is reported as absent. -/
theorem unseen_flag_reported :
    (kind_of (declare (argparse.create "") force_decls) "--force" = parameter_t.opt_none ∧
      scan (declare (argparse.create "") force_decls) [] = [] ∧
      has_flag (parse stod_none (declare (argparse.create "") force_decls) "prog"
        []).state ["--force"] = false ∧
      get_bool (parse stod_none (declare (argparse.create "") force_decls) "prog"
        []).state "--force" = some true) ∧
    (kind_of (declare (argparse.create "") flag_shadow_decls) "--q" = parameter_t.opt_none ∧
      is_required (declare (argparse.create "") flag_shadow_decls) "--q" = false ∧
      has_flag (parse stod_none (declare (argparse.create "") flag_shadow_decls) "prog"
        []).state ["--q"] = false ∧
      get_bool (parse stod_none (declare (argparse.create "") flag_shadow_decls) "prog"
        []).state "--q" = some true) ∧
    (has_flag (parse stod_none (declare (argparse.create "") example_decls) "prog"
        ["-v", "1", "-s", "x"]).state ["--quiet"] = false ∧
      get_bool (parse stod_none (declare (argparse.create "") example_decls) "prog"
        ["-v", "1", "-s", "x"]).state "--quiet" = some false) :=
  ⟨⟨by decide, by decide, by decide, by decide⟩, ⟨by decide, by decide, by decide, by decide⟩,
    ⟨by decide, by decide⟩⟩

/-- C12. `has_opt` reports an option that received no value: for a required
option that is missing, validation inserts an empty entry under its id, and
`has_opt` and `has_key` are true although nothing was stored and the option is
not a seen flag. -/
theorem has_opt_without_value :
    scan (declare (argparse.create "") (value_decls true)) [] = [] ∧
    has_value (parse stod_none (declare (argparse.create "") (value_decls true)) "prog"
      []).state.options "--value" = false ∧
    has_flag (parse stod_none (declare (argparse.create "") (value_decls true)) "prog"
      []).state ["--value"] = false ∧
    has_opt (parse stod_none (declare (argparse.create "") (value_decls true)) "prog"
      []).state ["--value"] = true ∧
    has_key (parse stod_none (declare (argparse.create "") (value_decls true)) "prog"
      []).state ["--value"] = true :=
  ⟨by decide, by decide, by decide, by decide, by decide⟩

/-- C16. After a parse the value map can hold a key that is not a declared id:
for a required option that is missing, validation evaluates
`options[short_map[key]]`, which inserts an entry under the empty string. -/
theorem undeclared_key_stored :
    is_defined (declare (argparse.create "") (value_decls true)) "" = false ∧
    umap.count (parse stod_none (declare (argparse.create "") (value_decls true)) "prog"
      []).state.options "" = true ∧
    is_defined (parse stod_none (declare (argparse.create "") (value_decls true)) "prog"
      []).state "" = false ∧
    (parse stod_none (declare (argparse.create "") (value_decls true)) "prog"
      []).state.options = [("--value", none), ("", none)] :=
  ⟨by decide, by decide, by decide, by decide⟩

/-- C17. `parse` changes an alias map: for a required option that is missing,
validation evaluates `short_map[key]`, which registers the id itself as an
alias of the empty string. The declared-options map, `long_map`, the required
set and the help texts are the same as before. -/
theorem parse_changes_short_map :
    (declare (argparse.create "") (value_decls true)).short_map = [("-v", "--value")] ∧
    (parse stod_none (declare (argparse.create "") (value_decls true)) "prog"
      []).state.short_map = [("-v", "--value"), ("--value", "")] ∧
    is_short (declare (argparse.create "") (value_decls true)) "--value" = false ∧
    is_short (parse stod_none (declare (argparse.create "") (value_decls true)) "prog"
      []).state "--value" = true ∧
    (parse stod_none (declare (argparse.create "") (value_decls true)) "prog"
      []).state.defined_set = (declare (argparse.create "") (value_decls true)).defined_set ∧
    (parse stod_none (declare (argparse.create "") (value_decls true)) "prog"
      []).state.long_map = (declare (argparse.create "") (value_decls true)).long_map ∧
    (parse stod_none (declare (argparse.create "") (value_decls true)) "prog"
      []).state.required_set = (declare (argparse.create "") (value_decls true)).required_set ∧
    (parse stod_none (declare (argparse.create "") (value_decls true)) "prog"
      []).state.help = (declare (argparse.create "") (value_decls true)).help :=
  ⟨by decide, by decide, by decide, by decide, by decide, by decide, by decide, by decide⟩

/-- C18. What a caller observes depends on the order in which validation
visits the required set: with `--value` and `--string` both required and both
missing, the loop inserts an entry for the first key it visits and stops, so
`has_opt`, `has_key` and `get<bool>` differ between the two orders;
`is_valid()`, `ignored_opts()` and `has_flag` do not. -/
theorem validation_order_observable :
    (declare (argparse.create "") scenario_decls).required_set = ["--value", "--string"] ∧
    parse stod_none (declare (argparse.create "") scenario_decls) "prog" ["-h"] =
      parse_in_order stod_none (declare (argparse.create "") scenario_decls) "prog" ["-h"]
        ["--value", "--string"] ∧
    (has_opt (parse_in_order stod_none (declare (argparse.create "") scenario_decls) "prog"
        ["-h"] ["--value", "--string"]).state ["--value"] = true ∧
      has_opt (parse_in_order stod_none (declare (argparse.create "") scenario_decls) "prog"
        ["-h"] ["--string", "--value"]).state ["--value"] = false) ∧
    (has_key (parse_in_order stod_none (declare (argparse.create "") scenario_decls) "prog"
        ["-h"] ["--value", "--string"]).state ["--value"] = true ∧
      has_key (parse_in_order stod_none (declare (argparse.create "") scenario_decls) "prog"
        ["-h"] ["--string", "--value"]).state ["--value"] = false) ∧
    (get_bool (parse_in_order stod_none (declare (argparse.create "") scenario_decls) "prog"
        ["-h"] ["--value", "--string"]).state "--value" = some true ∧
      get_bool (parse_in_order stod_none (declare (argparse.create "") scenario_decls) "prog"
        ["-h"] ["--string", "--value"]).state "--value" = some false) ∧
    (is_valid (parse_in_order stod_none (declare (argparse.create "") scenario_decls) "prog"
        ["-h"] ["--value", "--string"]).state = false ∧
      is_valid (parse_in_order stod_none (declare (argparse.create "") scenario_decls) "prog"
        ["-h"] ["--string", "--value"]).state = false) :=
  ⟨by decide, by decide, ⟨by decide, by decide⟩, ⟨by decide, by decide⟩,
    ⟨by decide, by decide⟩, ⟨by decide, by decide⟩⟩

end arg

namespace arg

/-- The member `parse` visits the required set in the order of the list that
carries it. -/
theorem parse_eq_in_order (stod : String → Except fault double) (a : argparse)
    (h : aliases_declared a) (argv0 : String) (args : List String) :
    parse stod a argv0 args = parse_in_order stod a argv0 args a.required_set := by
  have h1 := parse_loop_eq_run stod (named a argv0) (named_aliases a h argv0) args
  have h2 := (run_named_fields stod a argv0 (scan (named a argv0) args)).1
  rw [← h1] at h2
  unfold parse parse_in_order
  show (match parse_loop stod (named a argv0) args with
    | (a1, some fault.invalid_argument) => (⟨{ a1 with valid := false }, none⟩ : outcome)
    | (a1, some e) => ⟨a1, some e⟩
    | (a1, none) => ⟨validate { a1 with valid := true } a1.required_set, none⟩) =
    (match parse_loop stod (named a argv0) args with
    | (a1, some fault.invalid_argument) => (⟨{ a1 with valid := false }, none⟩ : outcome)
    | (a1, some e) => ⟨a1, some e⟩
    | (a1, none) => ⟨validate { a1 with valid := true } a.required_set, none⟩)
  cases hl : parse_loop stod (named a argv0) args with
  | mk s f =>
    rw [hl] at h2
    dsimp only at h2
    cases f with
    | none => dsimp only; rw [h2]
    | some e => cases e <;> rfl

/-- The validity flag, the flag set and the ignored list do not depend on the
order in which validation visits the required set. -/
theorem validate_order_independent (s : argparse) (keys1 keys2 : List String)
    (hp : List.Perm keys1 keys2) :
    (validate s keys1).valid = (validate s keys2).valid ∧
      (validate s keys1).flag_set = (validate s keys2).flag_set ∧
      (validate s keys1).ignored_options = (validate s keys2).ignored_options := by
  refine ⟨?_, ?_, ?_⟩
  · rw [validate_valid, validate_valid]
    congr 1
    rw [Bool.eq_iff_iff, List.all_eq_true, List.all_eq_true]
    constructor
    · intro h x hx
      exact h x (hp.mem_iff.2 hx)
    · intro h x hx
      exact h x (hp.mem_iff.1 hx)
  · rw [(validate_keeps keys1 s).1, (validate_keeps keys2 s).1]
  · rw [(validate_keeps keys1 s).2, (validate_keeps keys2 s).2]

end arg

/-! ## Re-declaration -/

namespace arg

theorem umap.assign_assign {V : Type} (m : umap V) (k : String) (v1 v2 : V) :
    umap.assign (umap.assign m k v1) k v2 = umap.assign m k v2 := by
  induction m with
  | nil => simp [umap.assign]
  | cons p t ih =>
    obtain ⟨k0, v0⟩ := p
    by_cases h0 : k0 = k
    · simp [umap.assign, h0]
    · simp [umap.assign, h0, ih]

theorem uset.insert_insert (s : uset) (k : String) :
    uset.insert (uset.insert s k) k = uset.insert s k := by
  unfold uset.insert
  by_cases h : k ∈ s
  · simp [h]
  · simp [h]

/-- Two calls of `option` for one id leave the object that the second call
alone leaves, when the first call registers no other alias and no required mark
that the second does not register. -/
theorem option_option (a : argparse) (id s1 s2 : String) (k1 k2 : parameter_t)
    (h1 h2 : String) (r1 r2 : Bool) (hs : s1 = "" ∨ s1 = s2) (hr : r1 = true → r2 = true) :
    option (option a id s1 k1 h1 r1) id s2 k2 h2 r2 = option a id s2 k2 h2 r2 := by
  cases r1 with
  | true =>
    have hr2 : r2 = true := hr rfl
    subst hr2
    rcases hs with hs | hs
    · subst hs
      by_cases h2e : s2 = ""
      · simp [option, h2e, umap.assign_assign, uset.insert_insert]
      · simp [option, h2e, umap.assign_assign, uset.insert_insert]
    · subst hs
      by_cases h1e : s1 = ""
      · simp [option, h1e, umap.assign_assign, uset.insert_insert]
      · simp [option, h1e, umap.assign_assign, uset.insert_insert]
  | false =>
    rcases hs with hs | hs
    · subst hs
      by_cases h2e : s2 = ""
      · cases r2 <;> simp [option, h2e, umap.assign_assign]
      · cases r2 <;> simp [option, h2e, umap.assign_assign]
    · subst hs
      by_cases h1e : s1 = ""
      · cases r2 <;> simp [option, h1e, umap.assign_assign]
      · cases r2 <;> simp [option, h1e, umap.assign_assign]

theorem declare_append (a : argparse) (xs ys : List decl) :
    declare a (xs ++ ys) = declare (declare a xs) ys := by
  unfold declare
  rw [List.foldl_append]

theorem declare_cons (a : argparse) (d : decl) (ds : List decl) :
    declare a (d :: ds) = declare (option a d.id d.short_id d.param_type d.helpstr d.required) ds := by
  unfold declare
  rfl

/-- C13, as stated, fails: a required mark and an alias registered by the first
declaration stay in force after the id is declared again. With `--value`
declared required and then declared again as optional, the empty argument list
is invalid, while it is valid for the second declaration alone; with the alias
`-a` replaced by `-b`, the arguments `-a 5` still give `--value` its value,
while the second declaration alone ignores both tokens. -/
theorem redeclare_counterexample :
    (is_valid (parse stod_none (declare (argparse.create "")
        [⟨"--value", "-v", parameter_t.opt_int, "", true⟩,
         ⟨"--value", "-v", parameter_t.opt_int, "", false⟩]) "prog" []).state = false ∧
      is_valid (parse stod_none (declare (argparse.create "")
        [⟨"--value", "-v", parameter_t.opt_int, "", false⟩]) "prog" []).state = true) ∧
    (has_value (parse stod_none (declare (argparse.create "")
        [⟨"--value", "-a", parameter_t.opt_int, "", false⟩,
         ⟨"--value", "-b", parameter_t.opt_int, "", false⟩]) "prog"
        ["-a", "5"]).state.options "--value" = true ∧
      ignored_opts (parse stod_none (declare (argparse.create "")
        [⟨"--value", "-a", parameter_t.opt_int, "", false⟩,
         ⟨"--value", "-b", parameter_t.opt_int, "", false⟩]) "prog" ["-a", "5"]).state = [] ∧
      has_value (parse stod_none (declare (argparse.create "")
        [⟨"--value", "-b", parameter_t.opt_int, "", false⟩]) "prog"
        ["-a", "5"]).state.options "--value" = false ∧
      ignored_opts (parse stod_none (declare (argparse.create "")
        [⟨"--value", "-b", parameter_t.opt_int, "", false⟩]) "prog"
        ["-a", "5"]).state = ["-a", "5"]) :=
  ⟨⟨by decide, by decide⟩, by decide, by decide, by decide, by decide⟩

/-- C13, amended. Declaring an id again overwrites its kind and help text. When
the first declaration registers no alias or the alias of the second, and is not
required unless the second one is, a parser built with `option(d1)` followed by
`option(d2)` behaves exactly like one built with `option(d2)` alone, among any
other declarations: for every argument list `parse` leaves the same object and
the same outcome, and the kind in force is the kind of `d2`. -/
theorem redeclare_last_write (stod : String → Except fault double) (name : String)
    (before after : List decl) (d1 d2 : decl) (argv0 : String) (args : List String)
    (hid : d1.id = d2.id)
    (hal : d1.short_id = "" ∨ d1.short_id = d2.short_id)
    (hreq : d1.required = true → d2.required = true) :
    parse stod (declare (argparse.create name) (before ++ d1 :: d2 :: after)) argv0 args =
      parse stod (declare (argparse.create name) (before ++ d2 :: after)) argv0 args ∧
    kind_of (declare (argparse.create name) (before ++ [d1, d2])) d2.id = d2.param_type := by
  have he : declare (argparse.create name) (before ++ d1 :: d2 :: after) =
      declare (argparse.create name) (before ++ d2 :: after) := by
    rw [declare_append, declare_append, declare_cons, declare_cons, declare_cons, hid,
      option_option _ d2.id d1.short_id d2.short_id d1.param_type d2.param_type d1.helpstr
        d2.helpstr d1.required d2.required hal hreq]
  refine ⟨by rw [he], ?_⟩
  rw [declare_append, declare_cons, declare_cons]
  apply kind_of_eq
  have hm := (option_maps (option (declare (argparse.create name) before) d1.id d1.short_id
    d1.param_type d1.helpstr d1.required) d2.id d2.short_id d2.param_type d2.helpstr
    d2.required).1
  show umap.lookup (option _ d2.id d2.short_id d2.param_type d2.helpstr d2.required).defined_set
    d2.id = _
  rw [hm]
  exact (umap.lookup_assign _ _ _ _).trans (if_pos rfl)

/-- Instance: `--value` declared as an optional string option and declared
again as a required int option with the same alias, after `--help`. -/
theorem redeclare_last_write_witness :
    parse stod_none (declare (argparse.create "")
        ([⟨"--help", "-h", parameter_t.opt_none, "", false⟩] ++
          ⟨"--value", "-v", parameter_t.opt_string, "old", false⟩ ::
          ⟨"--value", "-v", parameter_t.opt_int, "new", true⟩ :: [])) "prog" ["-v", "42"] =
      parse stod_none (declare (argparse.create "")
        ([⟨"--help", "-h", parameter_t.opt_none, "", false⟩] ++
          ⟨"--value", "-v", parameter_t.opt_int, "new", true⟩ :: [])) "prog" ["-v", "42"] ∧
    kind_of (declare (argparse.create "")
        ([⟨"--help", "-h", parameter_t.opt_none, "", false⟩] ++
          [⟨"--value", "-v", parameter_t.opt_string, "old", false⟩,
           ⟨"--value", "-v", parameter_t.opt_int, "new", true⟩]))
      (decl.mk "--value" "-v" parameter_t.opt_int "new" true).id =
      (decl.mk "--value" "-v" parameter_t.opt_int "new" true).param_type :=
  redeclare_last_write stod_none "" [⟨"--help", "-h", parameter_t.opt_none, "", false⟩] []
    ⟨"--value", "-v", parameter_t.opt_string, "old", false⟩
    ⟨"--value", "-v", parameter_t.opt_int, "new", true⟩ "prog" ["-v", "42"]
    rfl (Or.inr rfl) (fun _ => rfl)

end arg

/-! ## Consumption of tokens -/

namespace arg

theorem scan_of_decls (s a : argparse) (hd : s.defined_set = a.defined_set)
    (hs : s.short_map = a.short_map) (args : List String) : scan s args = scan a args := by
  unfold scan
  rw [hd, hs]

theorem aliases_declared_of_decls (s a : argparse) (hd : s.defined_set = a.defined_set)
    (hs : s.short_map = a.short_map) (h : aliases_declared a) : aliases_declared s := by
  intro tok id hl
  rw [hd]
  rw [hs] at hl
  exact h tok id hl

theorem loop_state_decls (stod : String → Except fault double) (a : argparse)
    (h : aliases_declared a) (args : List String) :
    (parse_loop stod a args).1.defined_set = a.defined_set ∧
      (parse_loop stod a args).1.short_map = a.short_map := by
  rw [parse_loop_eq_run stod a h args]
  have hu := run_unwritten stod (scan a args) a
  unfold unwritten at hu
  simp only [Prod.mk.injEq] at hu
  exact ⟨hu.2.1, hu.2.2.1⟩

theorem run_append_dangling (stod : String → Except fault double) (s : argparse)
    (xs : List item) (id : String) :
    run stod s (xs ++ [item.dangling id]) = run stod s xs := by
  rw [run_append]
  cases hx : run stod s xs with
  | mk s1 f =>
    cases f with
    | none =>
      dsimp only
      rw [run_cons_ok stod s1 s1 (item.dangling id) [] rfl, run_nil]
    | some e => rfl

/-- C14, as stated, fails: `--v` is the id of a declared `opt_int` option, but
it is also registered as the alias of the flag `--f`; as the final token it is
resolved to the flag, and the flag set is not the one of the arguments
alone. -/
theorem trailing_typed_counterexample :
    is_defined (declare (argparse.create "") typed_shadow_decls) "--v" = true ∧
    kind_of (declare (argparse.create "") typed_shadow_decls) "--v" = parameter_t.opt_int ∧
    complete (declare (argparse.create "") typed_shadow_decls) [] = true ∧
    (parse_loop stod_none (declare (argparse.create "") typed_shadow_decls) []).2 = none ∧
    (parse stod_none (declare (argparse.create "") typed_shadow_decls) "prog"
      []).state.flag_set = [] ∧
    (parse stod_none (declare (argparse.create "") typed_shadow_decls) "prog"
      ([] ++ ["--v"])).state.flag_set = ["--f"] :=
  ⟨by decide, by decide, by decide, by decide, by decide, by decide⟩

/-- C14, amended. For every declaration set and argument list whose parse ends
in option position (not aborted, last token not pending as a value), and every
token `t` that the parser resolves, alias first, to a declared Int, Float or
String option: parsing the arguments followed by `t` as the final token raises
no error and leaves the value map, the flag set, the ignored list and the
validity flag exactly as parsing the arguments alone does; nothing is stored
for `t`. -/
theorem trailing_typed_option (stod : String → Except fault double) (name : String)
    (ds : List decl) (argv0 : String) (args : List String) (t id : String)
    (hc : complete (declare (argparse.create name) ds) args = true)
    (hf : (parse_loop stod (declare (argparse.create name) ds) args).2 = none)
    (hr : resolve (declare (argparse.create name) ds) t = some id)
    (hk : kind_of (declare (argparse.create name) ds) id ≠ parameter_t.opt_none) :
    (parse stod (declare (argparse.create name) ds) argv0 (args ++ [t])).escaped = none ∧
    (parse stod (declare (argparse.create name) ds) argv0 (args ++ [t])).state.options =
      (parse stod (declare (argparse.create name) ds) argv0 args).state.options ∧
    (parse stod (declare (argparse.create name) ds) argv0 (args ++ [t])).state.flag_set =
      (parse stod (declare (argparse.create name) ds) argv0 args).state.flag_set ∧
    ignored_opts (parse stod (declare (argparse.create name) ds) argv0 (args ++ [t])).state =
      ignored_opts (parse stod (declare (argparse.create name) ds) argv0 args).state ∧
    is_valid (parse stod (declare (argparse.create name) ds) argv0 (args ++ [t])).state =
      is_valid (parse stod (declare (argparse.create name) ds) argv0 args).state := by
  have hwf := declared_aliases name ds
  generalize declare (argparse.create name) ds = a at hc hf hr hk hwf ⊢
  have he : parse stod a argv0 (args ++ [t]) = parse stod a argv0 args := by
    rw [parse_eq stod a hwf, parse_eq stod a hwf, scan_append a args [t] hc,
      scan_dangling a t id hr hk, run_append_dangling]
  rw [he]
  refine ⟨?_, rfl, rfl, rfl, rfl⟩
  rw [(parse_not_aborted stod a hwf argv0 args hf).2]

/-- Instance for the declarations of `src/example.cpp`: `--string` as the final
token. -/
theorem trailing_typed_option_witness :
    (parse stod_none (declare (argparse.create "") example_decls) "prog"
      (["-q", "-v", "1"] ++ ["--string"])).escaped = none ∧
    (parse stod_none (declare (argparse.create "") example_decls) "prog"
      (["-q", "-v", "1"] ++ ["--string"])).state.options =
      (parse stod_none (declare (argparse.create "") example_decls) "prog"
        ["-q", "-v", "1"]).state.options ∧
    (parse stod_none (declare (argparse.create "") example_decls) "prog"
      (["-q", "-v", "1"] ++ ["--string"])).state.flag_set =
      (parse stod_none (declare (argparse.create "") example_decls) "prog"
        ["-q", "-v", "1"]).state.flag_set ∧
    ignored_opts (parse stod_none (declare (argparse.create "") example_decls) "prog"
      (["-q", "-v", "1"] ++ ["--string"])).state =
      ignored_opts (parse stod_none (declare (argparse.create "") example_decls) "prog"
        ["-q", "-v", "1"]).state ∧
    is_valid (parse stod_none (declare (argparse.create "") example_decls) "prog"
      (["-q", "-v", "1"] ++ ["--string"])).state =
      is_valid (parse stod_none (declare (argparse.create "") example_decls) "prog"
        ["-q", "-v", "1"]).state :=
  trailing_typed_option stod_none "" example_decls "prog" ["-q", "-v", "1"] "--string"
    "--string" (by decide) (by decide) (by decide) (by decide)

/-- The loop of `parse` after a typed String option and its value token, and
after a Flag option, from an object whose aliases are declared. -/
theorem loop_resumes (stod : String → Except fault double) (a : argparse)
    (hwf : aliases_declared a) (pre : List String) (opt t : String) (post : List String)
    (id : String) (hc : complete a pre = true) (hf : (parse_loop stod a pre).2 = none)
    (hr : resolve a opt = some id) :
    (kind_of a id = parameter_t.opt_string →
      parse_loop stod a (pre ++ opt :: t :: post) =
        parse_loop stod (store_string (parse_loop stod a pre).1 id t) post) ∧
    (kind_of a id = parameter_t.opt_none →
      parse_loop stod a (pre ++ opt :: post) =
        parse_loop stod (store_flag (parse_loop stod a pre).1 id) post) := by
  obtain ⟨hd, hs⟩ := loop_state_decls stod a hwf pre
  have hpre := parse_loop_eq_run stod a hwf pre
  cases hp : parse_loop stod a pre with
  | mk s f =>
    rw [hp] at hf hd hs hpre
    dsimp only at hf hd hs
    subst hf
    constructor
    · intro hk
      have hk1 : kind_of a id ≠ parameter_t.opt_none := by rw [hk]; decide
      have hwf1 : aliases_declared (store_string s id t) :=
        aliases_declared_of_decls _ a hd hs hwf
      rw [parse_loop_eq_run stod a hwf, scan_append a pre _ hc,
        scan_valued a opt id t post hr hk1, hk, run_append, ← hpre]
      dsimp only
      rw [run_cons_ok stod s _ (item.valued id parameter_t.opt_string t) _ rfl,
        parse_loop_eq_run stod _ hwf1 post, scan_of_decls (store_string s id t) a hd hs]
    · intro hk
      have hwf1 : aliases_declared (store_flag s id) :=
        aliases_declared_of_decls _ a hd hs hwf
      have hsc : scan a (opt :: post) = item.flag id :: scan a post :=
        scan_flag a opt id post hr hk
      rw [parse_loop_eq_run stod a hwf, scan_append a pre _ hc, hsc, run_append, ← hpre]
      dsimp only
      rw [run_cons_ok stod s _ (item.flag id) _ rfl,
        parse_loop_eq_run stod _ hwf1 post, scan_of_decls (store_flag s id) a hd hs]

end arg

namespace arg

theorem named_decls (a : argparse) (argv0 : String) :
    (named a argv0).defined_set = a.defined_set ∧ (named a argv0).short_map = a.short_map :=
  ⟨(named_fields a argv0).2.2.2.2, (named_fields a argv0).2.2.2.1⟩

end arg

/-! ## Well-formed declarations -/

namespace arg

theorem umap.count_assign {V : Type} (m : umap V) (k k1 : String) (v : V) :
    umap.count (umap.assign m k v) k1 = (decide (k = k1) || umap.count m k1) := by
  unfold umap.count
  rw [umap.lookup_assign]
  by_cases h : k = k1 <;> simp [h]

theorem option_fields (a : argparse) (id short_id : String) (k : parameter_t) (helpstr : String)
    (required : Bool) :
    (option a id short_id k helpstr required).defined_set = umap.assign a.defined_set id k ∧
    (option a id short_id k helpstr required).help = umap.assign a.help id helpstr ∧
    (option a id short_id k helpstr required).short_map =
      (if short_id ≠ "" then umap.assign a.short_map short_id id else a.short_map) ∧
    (option a id short_id k helpstr required).long_map =
      (if short_id ≠ "" then umap.assign a.long_map id short_id else a.long_map) ∧
    (option a id short_id k helpstr required).required_set =
      (if required = true then uset.insert a.required_set id else a.required_set) ∧
    (option a id short_id k helpstr required).program_name = a.program_name := by
  unfold option
  by_cases hs : short_id ≠ "" <;> cases required <;> simp [hs]

theorem well_formed_option (a : argparse) (h : well_formed a) (id short_id : String)
    (k : parameter_t) (helpstr : String) (required : Bool) :
    well_formed (option a id short_id k helpstr required) := by
  obtain ⟨w1, w2, w3, w4⟩ := h
  obtain ⟨f1, f2, _, f4, f5, _⟩ := option_fields a id short_id k helpstr required
  refine ⟨?_, aliases_declared_option a w2 id short_id k helpstr required, ?_, ?_⟩
  · intro k1
    rw [f1, f2, umap.count_assign, umap.count_assign, w1]
  · intro id1 hc
    rw [f1, umap.count_assign]
    rw [f4] at hc
    by_cases hs : short_id ≠ ""
    · rw [if_pos hs, umap.count_assign] at hc
      by_cases hid : id = id1
      · simp [hid]
      · simp only [hid, decide_False, Bool.false_or] at hc ⊢
        exact w3 id1 hc
    · rw [if_neg hs] at hc
      rw [w3 id1 hc, Bool.or_true]
  · intro id1 hm
    rw [f1, umap.count_assign]
    rw [f5] at hm
    by_cases hid : id = id1
    · simp [hid]
    · have hm1 : id1 ∈ a.required_set := by
        cases required with
        | false => simpa using hm
        | true =>
          simp only [if_true] at hm
          unfold uset.insert at hm
          by_cases hin : id ∈ a.required_set
          · rw [if_pos hin] at hm
            exact hm
          · rw [if_neg hin, List.mem_append, List.mem_singleton] at hm
            rcases hm with hm | hm
            · exact hm
            · exact absurd hm.symm hid
      rw [w4 id1 hm1, Bool.or_true]

theorem well_formed_declare (ds : List decl) : ∀ a : argparse, well_formed a →
    well_formed (declare a ds) := by
  induction ds with
  | nil => intro a h; exact h
  | cons d ds ih =>
    intro a h
    rw [declare_cons]
    exact ih _ (well_formed_option a h d.id d.short_id d.param_type d.helpstr d.required)

/-- A call of `flag` is a call of `option` with kind `opt_none` and no required
mark, so a chain of `option` and `flag` calls is a `declare`. -/
theorem flag_eq_option (a : argparse) (id short_id helpstr : String) :
    flag a id short_id helpstr =
      declare a [⟨id, short_id, parameter_t.opt_none, helpstr, false⟩] := rfl

theorem well_formed_create (name : String) : well_formed (argparse.create name) := by
  refine ⟨fun _ => rfl, ?_, ?_, ?_⟩
  · intro tok id hl
    simp [argparse.create, umap.lookup] at hl
  · intro id hc
    simp [argparse.create, umap.count, umap.lookup] at hc
  · intro id hm
    simp [argparse.create] at hm

theorem declared_well_formed (name : String) (ds : List decl) :
    well_formed (declare (argparse.create name) ds) :=
  well_formed_declare ds _ (well_formed_create name)

theorem validate_defined (keys : List String) : ∀ s : argparse,
    (validate s keys).defined_set = s.defined_set := by
  induction keys with
  | nil => intro s; simp [validate]
  | cons key keys ih =>
    intro s
    rw [validate]
    dsimp only
    by_cases h1 : (umap.subscript s.options key none).1.isSome = true
    · rw [if_pos h1, ih]
    · rw [if_neg h1]
      by_cases h2 : (umap.subscript (umap.subscript s.options key none).2
          (umap.subscript s.short_map key "").1 none).1.isSome = true
      · rw [if_pos h2, ih]
      · rw [if_neg h2]

theorem parse_defined (stod : String → Except fault double) (a : argparse)
    (hwf : aliases_declared a) (argv0 : String) (args : List String) :
    (parse stod a argv0 args).state.defined_set = a.defined_set := by
  have hu := run_unwritten stod (scan a args) (named a argv0)
  unfold unwritten at hu
  simp only [Prod.mk.injEq] at hu
  have hd := hu.2.1.trans (named_decls a argv0).1
  rw [parse_eq stod a hwf]
  cases hrun : run stod (named a argv0) (scan a args) with
  | mk s f =>
    rw [hrun] at hd
    dsimp only at hd
    cases f with
    | none =>
      show (validate _ _).defined_set = _
      rw [validate_defined]
      exact hd
    | some e => cases e <;> exact hd

theorem at_of_count {V : Type} (m : umap V) (k : String) (h : umap.count m k = true) :
    ∃ v, umap.lookup m k = some v ∧ umap.at_ m k = Except.ok v := by
  obtain ⟨v, hv⟩ := (umap.count_eq_true m k).1 h
  refine ⟨v, hv, ?_⟩
  unfold umap.at_
  rw [hv]

theorem usage_entry_ok (a : argparse) (max_width : Nat) (id : String)
    (hh : umap.count a.help id = true) : ∃ line, usage_entry a max_width id = Except.ok line := by
  obtain ⟨h, _, hat⟩ := at_of_count a.help id hh
  unfold usage_entry
  by_cases hl : umap.count a.long_map id = true
  · obtain ⟨al, _, hal⟩ := at_of_count a.long_map id hl
    simp only [hl, if_true, hal, hat]
    exact ⟨_, rfl⟩
  · simp only [hl, hat]
    exact ⟨_, rfl⟩

theorem usage_loop_ok (a : argparse) (max_width : Nat) (l : List (String × parameter_t)) :
    ∀ ss : String, (∀ opt ∈ l, umap.count a.help opt.1 = true) →
      ∃ text, usage_loop a max_width l ss = Except.ok text := by
  induction l with
  | nil => intro ss _; exact ⟨ss, rfl⟩
  | cons opt rest ih =>
    intro ss h
    obtain ⟨line, hline⟩ := usage_entry_ok a max_width opt.1 (h opt (List.mem_cons_self _ _))
    rw [usage_loop]
    simp only [hline]
    exact ih _ (fun o ho => h o (List.mem_cons_of_mem _ ho))

theorem count_of_mem {V : Type} (m : umap V) (p : String × V) (h : p ∈ m) :
    umap.count m p.1 = true := by
  induction m with
  | nil => cases h
  | cons q t ih =>
    obtain ⟨k0, v0⟩ := q
    unfold umap.count umap.lookup
    by_cases hk : k0 = p.1
    · simp [hk]
    · rcases List.mem_cons.1 h with e | hm
      · subst e
        exact absurd rfl hk
      · simp only [hk, if_false]
        exact ih hm

/-- C20. Declaration well-formedness: after every sequence of `option` and
`flag` calls the help map has exactly the keys of the declared-options map,
every value of `short_map` and every key of `long_map` is a declared id, and
every element of the required set is a declared id. So `usage()` does not fail,
and in `parse` a recognised token resolves to a declared id, the lookup
`defined_set[option]` inserts nothing, and its result is one of the four
kinds. -/
theorem declarations_well_formed (name : String) (ds : List decl) :
    (∀ k, umap.count (declare (argparse.create name) ds).help k =
      umap.count (declare (argparse.create name) ds).defined_set k) ∧
    (∀ tok id, umap.lookup (declare (argparse.create name) ds).short_map tok = some id →
      is_defined (declare (argparse.create name) ds) id = true) ∧
    (∀ id, umap.count (declare (argparse.create name) ds).long_map id = true →
      is_defined (declare (argparse.create name) ds) id = true) ∧
    (∀ id ∈ (declare (argparse.create name) ds).required_set,
      is_defined (declare (argparse.create name) ds) id = true) ∧
    (∃ text, usage (declare (argparse.create name) ds) = Except.ok text) ∧
    (∀ tok id, resolve (declare (argparse.create name) ds) tok = some id →
      ∃ k, umap.lookup (declare (argparse.create name) ds).defined_set id = some k ∧
        (k = parameter_t.opt_int ∨ k = parameter_t.opt_float ∨ k = parameter_t.opt_string ∨
          k = parameter_t.opt_none)) ∧
    (∀ (stod : String → Except fault double) (argv0 : String) (args : List String),
      (parse stod (declare (argparse.create name) ds) argv0 args).state.defined_set =
        (declare (argparse.create name) ds).defined_set) := by
  obtain ⟨w1, w2, w3, w4⟩ := declared_well_formed name ds
  refine ⟨w1, w2, w3, w4, ?_, ?_, ?_⟩
  · unfold usage
    apply usage_loop_ok
    intro opt hopt
    rw [w1]
    exact count_of_mem _ opt hopt
  · intro tok id hr
    obtain ⟨k, hk⟩ := resolve_declared _ w2 tok id hr
    refine ⟨k, hk, ?_⟩
    cases k <;> simp
  · intro stod argv0 args
    exact parse_defined stod _ w2 argv0 args

end arg

/-! ## A typed option and the token after it -/

namespace arg

/-- C15, as stated, fails: `--s` is a declared String option, but it is also
registered as the alias of the flag `--f`; in option position it is resolved to
the flag, so the token `hello` after it is not stored as its value: it is
walked as a token of its own and appended to the ignored list. -/
theorem string_shadow_counterexample :
    is_defined (declare (argparse.create "") string_shadow_decls) "--s" = true ∧
    kind_of (declare (argparse.create "") string_shadow_decls) "--s" =
      parameter_t.opt_string ∧
    (parse stod_none (declare (argparse.create "") string_shadow_decls) "prog"
      ["--s", "hello"]).escaped = none ∧
    has_value (parse stod_none (declare (argparse.create "") string_shadow_decls) "prog"
      ["--s", "hello"]).state.options "--s" = false ∧
    get_string (parse stod_none (declare (argparse.create "") string_shadow_decls) "prog"
      ["--s", "hello"]).state "--s" = Except.ok none ∧
    ignored_opts (parse stod_none (declare (argparse.create "") string_shadow_decls) "prog"
      ["--s", "hello"]).state = ["hello"] ∧
    (parse stod_none (declare (argparse.create "") string_shadow_decls) "prog"
      ["--s", "hello"]).state.flag_set = ["--f"] :=
  ⟨by decide, by decide, by decide, by decide, rfl, by decide, by decide⟩

/-- C15, amended. A typed option consumes the following token as its value:
when the arguments before position k are walked without a failure and end in
option position, then for every token `opt` at position k that the parser
resolves, alias first, to a declared String option, and whatever the next
token `t` is (also a declared id or alias), the loop of `parse` continues on
the tokens after `t` from the object in which `t` is stored verbatim under the
option's id, with the flag set and the ignored list as they were before `t`;
and for every token `fl` at position k that the parser resolves to a Flag, the
loop continues on the tokens after `fl` itself from the object with the flag
recorded. -/
theorem typed_option_consumes_next (stod : String → Except fault double) (name : String)
    (ds : List decl) (argv0 : String) (pre post : List String)
    (hc : complete (declare (argparse.create name) ds) pre = true)
    (hf : (parse_loop stod (declare (argparse.create name) ds) pre).2 = none) :
    (∀ opt id t : String,
      resolve (declare (argparse.create name) ds) opt = some id →
      kind_of (declare (argparse.create name) ds) id = parameter_t.opt_string →
      parse_loop stod (named (declare (argparse.create name) ds) argv0)
          (pre ++ opt :: t :: post) =
        parse_loop stod (store_string
          (parse_loop stod (named (declare (argparse.create name) ds) argv0) pre).1 id t)
          post ∧
      get_string (store_string
          (parse_loop stod (named (declare (argparse.create name) ds) argv0) pre).1 id t) id =
        Except.ok (some t) ∧
      (store_string
          (parse_loop stod (named (declare (argparse.create name) ds) argv0) pre).1 id
          t).flag_set =
        (parse_loop stod (named (declare (argparse.create name) ds) argv0) pre).1.flag_set ∧
      (store_string
          (parse_loop stod (named (declare (argparse.create name) ds) argv0) pre).1 id
          t).ignored_options =
        (parse_loop stod (named (declare (argparse.create name) ds) argv0)
          pre).1.ignored_options) ∧
    (∀ fl fid : String,
      resolve (declare (argparse.create name) ds) fl = some fid →
      kind_of (declare (argparse.create name) ds) fid = parameter_t.opt_none →
      parse_loop stod (named (declare (argparse.create name) ds) argv0)
          (pre ++ fl :: post) =
        parse_loop stod (store_flag
          (parse_loop stod (named (declare (argparse.create name) ds) argv0) pre).1 fid)
          post) := by
  have hwf := declared_aliases name ds
  generalize declare (argparse.create name) ds = a at hc hf hwf ⊢
  obtain ⟨hd, hs⟩ := named_decls a argv0
  have hwf0 := named_aliases a hwf argv0
  have hsc : ∀ l, scan (named a argv0) l = scan a l := named_scan a argv0
  have hc0 : complete (named a argv0) pre = true := by
    unfold complete at hc ⊢
    rw [hsc]
    exact hc
  have hf0 : (parse_loop stod (named a argv0) pre).2 = none := by
    rw [loop_fault_none_iff stod _ hwf0, hsc]
    exact (loop_fault_none_iff stod a hwf pre).1 hf
  have hres : ∀ tok id, resolve a tok = some id → resolve (named a argv0) tok = some id := by
    intro tok id hr
    unfold resolve at hr ⊢
    rw [hd, hs]
    exact hr
  have hkind : ∀ id, kind_of (named a argv0) id = kind_of a id := by
    intro id
    unfold kind_of
    rw [hd]
  constructor
  · intro opt id t hr hk
    refine ⟨(loop_resumes stod _ hwf0 pre opt t post id hc0 hf0 (hres opt id hr)).1
      ((hkind id).trans hk), ?_, rfl, rfl⟩
    apply get_string_of_lookup _ id parameter_t.opt_string t
    exact (umap.lookup_assign _ id id _).trans (if_pos rfl)
  · intro fl fid hrf hkf
    exact (loop_resumes stod _ hwf0 pre fl fl post fid hc0 hf0 (hres fl fid hrf)).2
      ((hkind fid).trans hkf)

/-- Instance for the declarations of `src/example.cpp`: after `-q`, the option
`-s` takes the declared id `--help` as its value, and the flag `-h` takes
nothing. -/
theorem typed_option_consumes_next_witness :
    (parse_loop stod_none (named (declare (argparse.create "") example_decls) "prog")
        (["-q"] ++ "-s" :: "--help" :: ["-p", "3"]) =
      parse_loop stod_none (store_string
        (parse_loop stod_none (named (declare (argparse.create "") example_decls) "prog")
          ["-q"]).1 "--string" "--help") ["-p", "3"] ∧
    get_string (store_string
        (parse_loop stod_none (named (declare (argparse.create "") example_decls) "prog")
          ["-q"]).1 "--string" "--help") "--string" = Except.ok (some "--help")) ∧
    parse_loop stod_none (named (declare (argparse.create "") example_decls) "prog")
        (["-q"] ++ "-h" :: ["-p", "3"]) =
      parse_loop stod_none (store_flag
        (parse_loop stod_none (named (declare (argparse.create "") example_decls) "prog")
          ["-q"]).1 "--help") ["-p", "3"] :=
  ⟨⟨((typed_option_consumes_next stod_none "" example_decls "prog" ["-q"] ["-p", "3"]
      (by decide) (by decide)).1 "-s" "--string" "--help" (by decide) (by decide)).1,
    ((typed_option_consumes_next stod_none "" example_decls "prog" ["-q"] ["-p", "3"]
      (by decide) (by decide)).1 "-s" "--string" "--help" (by decide) (by decide)).2.1⟩,
    (typed_option_consumes_next stod_none "" example_decls "prog" ["-q"] ["-p", "3"]
      (by decide) (by decide)).2 "-h" "--help" (by decide) (by decide)⟩

end arg

/-! ## The usage text -/

namespace arg

theorem max_width_loop_eq (l : List (String × parameter_t)) : ∀ w : Nat,
    max_width_loop w l = max w ((l.map (fun opt => opt.1.utf8ByteSize)).foldr max 0) := by
  induction l with
  | nil => intro w; simp [max_width_loop]
  | cons opt rest ih =>
    intro w
    rw [max_width_loop, ih]
    simp only [List.map_cons, List.foldr_cons]
    unfold size
    by_cases h : opt.1.utf8ByteSize > w
    · rw [if_pos h]
      omega
    · rw [if_neg h]
      omega

theorem size_le_foldr_max (l : List (String × parameter_t)) (opt : String × parameter_t)
    (h : opt ∈ l) : opt.1.utf8ByteSize ≤ (l.map (fun o => o.1.utf8ByteSize)).foldr max 0 := by
  induction l with
  | nil => cases h
  | cons q t ih =>
    simp only [List.map_cons, List.foldr_cons]
    rcases List.mem_cons.1 h with e | hm
    · subst e
      omega
    · have := ih hm
      omega

theorem foldr_max_le (l : List (String × parameter_t)) (b : Nat)
    (h : ∀ opt ∈ l, opt.1.utf8ByteSize ≤ b) :
    (l.map (fun o => o.1.utf8ByteSize)).foldr max 0 ≤ b := by
  induction l with
  | nil => simp
  | cons q t ih =>
    simp only [List.map_cons, List.foldr_cons]
    have h1 := h q (List.mem_cons_self _ _)
    have h2 := ih (fun o ho => h o (List.mem_cons_of_mem _ ho))
    omega

/-- The first loop of `usage` finds the length of the longest declared id,
whatever the order of the visit. -/
theorem max_width_loop_longest (a : argparse) (order : List (String × parameter_t))
    (hperm : List.Perm order a.defined_set) : max_width_loop 0 order = longest a := by
  rw [max_width_loop_eq, Nat.zero_max]
  unfold longest
  apply Nat.le_antisymm
  · exact foldr_max_le order _
      (fun opt ho => size_le_foldr_max a.defined_set opt (hperm.mem_iff.1 ho))
  · exact foldr_max_le a.defined_set _
      (fun opt ho => size_le_foldr_max order opt (hperm.mem_iff.2 ho))

theorem size_sub_eq (x y : Nat) (hx : x < SIZE_MOD) (hy : y ≤ x) : size_sub x y = x - y := by
  unfold size_sub
  unfold SIZE_MOD at hx ⊢
  omega

theorem size_add_eq (x y : Nat) (h : x + y < SIZE_MOD) : size_add x y = x + y := by
  unfold size_add
  exact Nat.mod_eq_of_lt h

theorem usage_entry_eq (a : argparse) (id : String) (hfit : longest a + 15 < SIZE_MOD)
    (hsz : id.utf8ByteSize ≤ longest a) (hh : umap.count a.help id = true) :
    usage_entry a (longest a + 15) id = Except.ok (usage_line a id) := by
  obtain ⟨h, hlh, hat⟩ := at_of_count a.help id hh
  have e1 : size_sub (longest a + 15) id.utf8ByteSize = longest a + 15 - id.utf8ByteSize :=
    size_sub_eq _ _ hfit (by omega)
  have e2 : size_sub (longest a + 15 - id.utf8ByteSize) 4 =
      longest a + 15 - id.utf8ByteSize - 4 :=
    size_sub_eq _ _ (by omega) (by omega)
  have hreq : (if is_required a id = true then " (REQUIRED)" else "") =
      (if id ∈ a.required_set then " (REQUIRED)" else "") := by
    unfold is_required uset.count
    by_cases hm : id ∈ a.required_set <;> simp [hm]
  unfold usage_entry usage_line padding spaces size
  rw [hreq]
  cases hl : umap.lookup a.long_map id with
  | some al =>
    have hc : umap.count a.long_map id = true := (umap.count_eq_true _ _).2 ⟨al, hl⟩
    have hal : umap.at_ a.long_map id = Except.ok al := by
      unfold umap.at_
      rw [hl]
    simp only [hc, if_true, hal, hat, e1, e2, hlh, Option.getD_some]
    rw [String.append_assoc ("\t" ++ id) ", " al]
  | none =>
    have hc : umap.count a.long_map id = false := (umap.count_eq_false _ _).2 hl
    simp only [hc, hat, e1, hlh, Option.getD_some, Bool.false_eq_true, if_false,
      String.append_empty, Nat.sub_zero]

theorem usage_loop_eq (a : argparse) (max_width : Nat) (l : List (String × parameter_t)) :
    ∀ ss : String,
      (∀ opt ∈ l, usage_entry a max_width opt.1 = Except.ok (usage_line a opt.1)) →
      usage_loop a max_width l ss = Except.ok
        (ss ++ ((l.map Prod.fst).map (usage_line a)).foldr (fun line rest => line ++ rest) "") := by
  induction l with
  | nil =>
    intro ss _
    simp [usage_loop]
  | cons opt rest ih =>
    intro ss h
    rw [usage_loop]
    simp only [h opt (List.mem_cons_self _ _)]
    rw [ih _ (fun o ho => h o (List.mem_cons_of_mem _ ho))]
    simp only [List.map_cons, List.foldr_cons, String.append_assoc]

theorem mem_keys_iff {V : Type} (m : umap V) (k : String) :
    k ∈ m.map Prod.fst ↔ umap.count m k = true := by
  induction m with
  | nil => simp [umap.count, umap.lookup]
  | cons q t ih =>
    obtain ⟨k0, v0⟩ := q
    unfold umap.count umap.lookup
    by_cases hk : k0 = k
    · simp [hk]
    · have hk1 : ¬ k = k0 := fun e => hk e.symm
      simp only [List.map_cons, List.mem_cons, hk1, false_or, hk, if_false]
      exact ih

theorem keys_assign {V : Type} (m : umap V) (k : String) (v : V) :
    (umap.assign m k v).map Prod.fst =
      if umap.count m k = true then m.map Prod.fst else m.map Prod.fst ++ [k] := by
  induction m with
  | nil => simp [umap.assign, umap.count, umap.lookup]
  | cons q t ih =>
    obtain ⟨k0, v0⟩ := q
    by_cases hk : k0 = k
    · simp [umap.assign, umap.count, umap.lookup, hk]
    · have hc : umap.count ((k0, v0) :: t) k = umap.count t k := by
        simp [umap.count, umap.lookup, hk]
      rw [hc]
      simp only [umap.assign, hk, if_false, List.map_cons, ih]
      by_cases ht : umap.count t k = true
      · simp [ht]
      · simp [ht]

theorem keys_nodup_assign {V : Type} (m : umap V) (k : String) (v : V)
    (h : (m.map Prod.fst).Nodup) : ((umap.assign m k v).map Prod.fst).Nodup := by
  rw [keys_assign]
  by_cases hc : umap.count m k = true
  · rw [if_pos hc]
    exact h
  · rw [if_neg hc]
    have hn : k ∉ m.map Prod.fst := fun hm => hc ((mem_keys_iff m k).1 hm)
    rw [List.nodup_append]
    refine ⟨h, List.nodup_singleton k, ?_⟩
    intro x hx hx1
    rw [List.mem_singleton] at hx1
    subst hx1
    exact hn hx

theorem declared_keys_nodup (ds : List decl) : ∀ a : argparse,
    (a.defined_set.map Prod.fst).Nodup → ((declare a ds).defined_set.map Prod.fst).Nodup := by
  induction ds with
  | nil => intro a h; exact h
  | cons d ds ih =>
    intro a h
    rw [declare_cons]
    apply ih
    rw [(option_fields a d.id d.short_id d.param_type d.helpstr d.required).1]
    exact keys_nodup_assign _ _ _ h

/-- C19. For every declared object and every order in which the loops of
`usage()` may visit the declared options, the text is the header, a blank line
and `Possible options:`, followed by one line per declared id, each declared id
once; the line is a tab, the id, `, <alias>` exactly when an alias is registered
for the id, then a run of spaces of length longest id + 15 - this id's length,
less 4 when an alias is present, then the help text, then ` (REQUIRED)` exactly
when the id is in the required set. The length that the code computes by
`size_t` subtraction is that number: no id is longer than the longest, and the
count of spaces is at least 11, so nothing wraps. Lengths are `size()` in
bytes, taken to fit `size_t`. -/
theorem usage_layout (name : String) (ds : List decl) (order : List (String × parameter_t))
    (hperm : List.Perm order (declare (argparse.create name) ds).defined_set)
    (hfit : longest (declare (argparse.create name) ds) + 15 < SIZE_MOD) :
    usage_in_order (declare (argparse.create name) ds) order =
      Except.ok (usage_text (declare (argparse.create name) ds) (order.map Prod.fst)) ∧
    usage (declare (argparse.create name) ds) =
      usage_in_order (declare (argparse.create name) ds)
        (declare (argparse.create name) ds).defined_set ∧
    (order.map Prod.fst).Nodup ∧
    (∀ id, id ∈ order.map Prod.fst ↔
      is_defined (declare (argparse.create name) ds) id = true) ∧
    (∀ id, is_defined (declare (argparse.create name) ds) id = true →
      id.utf8ByteSize ≤ longest (declare (argparse.create name) ds) ∧
      size_sub (size_add (max_width_loop 0 order) 15) (size id) =
        longest (declare (argparse.create name) ds) + 15 - id.utf8ByteSize ∧
      11 ≤ padding (declare (argparse.create name) ds) id) := by
  obtain ⟨w1, _, _, _⟩ := declared_well_formed name ds
  have hnd := declared_keys_nodup ds (argparse.create name) (by simp [argparse.create])
  generalize declare (argparse.create name) ds = a at hperm hfit w1 hnd ⊢
  have hsz : ∀ opt ∈ a.defined_set, opt.1.utf8ByteSize ≤ longest a :=
    fun opt ho => size_le_foldr_max a.defined_set opt ho
  have hmw : size_add (max_width_loop 0 order) 15 = longest a + 15 := by
    rw [max_width_loop_longest a order hperm]
    exact size_add_eq _ _ hfit
  have hkeys : ∀ id, id ∈ order.map Prod.fst ↔ is_defined a id = true := fun id =>
    ((hperm.map Prod.fst).mem_iff).trans (mem_keys_iff a.defined_set id)
  refine ⟨?_, rfl, ((hperm.map Prod.fst).nodup_iff).2 hnd, hkeys, ?_⟩
  · unfold usage_in_order usage_text
    rw [hmw]
    apply usage_loop_eq
    intro opt ho
    have ho1 : opt ∈ a.defined_set := hperm.mem_iff.1 ho
    apply usage_entry_eq a opt.1 hfit (hsz opt ho1)
    rw [w1]
    exact count_of_mem _ opt ho1
  · intro id hid
    obtain ⟨opt, ho, he⟩ := List.mem_map.1 ((mem_keys_iff a.defined_set id).2 hid)
    have hle := hsz opt ho
    rw [he] at hle
    refine ⟨hle, ?_, ?_⟩
    · rw [hmw]
      exact size_sub_eq _ _ hfit (by unfold size; omega)
    · unfold padding
      cases umap.lookup a.long_map id with
      | some al => simp only; omega
      | none => simp only; omega

set_option maxRecDepth 100000 in
/-- Instance for the declarations of `src/example.cpp`, visited in the reverse
of the order of declaration: the text, line by line, and the count of spaces
of the line of `--string`. -/
theorem usage_layout_witness :
    usage_in_order (declare (argparse.create "prog") example_decls)
        (declare (argparse.create "prog") example_decls).defined_set.reverse =
      Except.ok (usage_text (declare (argparse.create "prog") example_decls)
        ((declare (argparse.create "prog") example_decls).defined_set.reverse.map Prod.fst)) ∧
    usage_text (declare (argparse.create "prog") example_decls)
        ((declare (argparse.create "prog") example_decls).defined_set.reverse.map Prod.fst) =
      "Usage: prog [OPTIONS]\n\nPossible options:\n" ++
      "\t--quiet, -q            shut up\n" ++
      "\t--float, -f            set a float\n" ++
      "\t--string, -s           set a string (REQUIRED)\n" ++
      "\t--value, -v            set a value (REQUIRED)\n" ++
      "\t--param, -p            set some param\n" ++
      "\t--help, -h             show this text\n" ∧
    size_sub (size_add (max_width_loop 0
        (declare (argparse.create "prog") example_decls).defined_set.reverse) 15)
        (size "--string") =
      longest (declare (argparse.create "prog") example_decls) + 15 - "--string".utf8ByteSize ∧
    padding (declare (argparse.create "prog") example_decls) "--string" = 11 :=
  ⟨(usage_layout "prog" example_decls _ (List.reverse_perm _) (by decide)).1,
    by decide,
    ((usage_layout "prog" example_decls _ (List.reverse_perm _) (by decide)).2.2.2.2
      "--string" (by decide)).2.1,
    by decide⟩

end arg
